import Mathlib

/-!
Verification of the response-parsing and URL-building pipeline of
`hilltoppy/web_service.py` (hilltop-py).

The Python source is shallowly embedded: the XML element trees consumed by the
functions become the inductive `XElem`; Python (insertion-ordered) dicts become
association lists with in-place update (`updateD`); pandas DataFrames become
lists of row structures; functions that can raise become `Except String`
valued.  Timestamps are represented by a monotone `Nat` key produced by
`parseDT`, a model of the external `pandas.to_datetime` collaborator restricted
to ISO `YYYY-MM-DD[THH:MM[:SS]]` strings (the only shapes exercised here);
`errors='coerce'` is modelled by `Option.bind parseDT`.

Where the Python code would let a `None` element text flow onward (e.g. a `<T>`
element with no text becomes a `None` dict key that pandas later renders as
`NaT`), the embedding keeps the `Option`; where the code would raise
(`AttributeError` on `None.encode`, `KeyError` on a missing attribute or
column, `NameError` on an undefined local), the embedding returns
`Except.error`.
-/

namespace Hilltoppy

/-- Model of an `xml.etree.ElementTree` element: tag, attributes, text,
children (in document order). -/
inductive XElem where
  | mk (tag : String) (attrib : List (String × String)) (text : Option String)
      (children : List XElem)

def XElem.tag : XElem → String
  | .mk t _ _ _ => t

def XElem.attrib : XElem → List (String × String)
  | .mk _ a _ _ => a

def XElem.text : XElem → Option String
  | .mk _ _ x _ => x

def XElem.children : XElem → List XElem
  | .mk _ _ _ c => c

/-- `e.find(t)`: first direct child with the given tag, if any. -/
def XElem.find (e : XElem) (t : String) : Option XElem :=
  e.children.find? (fun c => c.tag == t)

/-- `e.findall(t)`: all direct children with the given tag, in order. -/
def XElem.findall (e : XElem) (t : String) : List XElem :=
  e.children.filter (fun c => c.tag == t)

/-- `e.attrib[k]` as an `Option` (the call sites turn `none` into `KeyError`). -/
def XElem.attr (e : XElem) (k : String) : Option String :=
  (e.attrib.find? (fun p => p.1 == k)).map Prod.snd

/-- `e.find(t).text`, collapsing a missing child to `none`; used only in
theorem statements (the embedding of the code itself distinguishes the
`AttributeError` of a missing child from a present-but-textless child). -/
def XElem.findText (e : XElem) (t : String) : Option String :=
  (e.find t).bind (fun c => c.text)

/-- `s.encode('ascii', 'ignore').decode()`: drop non-ASCII characters. -/
def asciiIgnore (s : String) : String :=
  String.mk (s.toList.filter (fun c => c.toNat ≤ 127))

/-- `s[:299]` on a Python string (by code points). -/
def take299 (s : String) : String :=
  String.mk (s.toList.take 299)

/-! ### Python dict model

Python dicts preserve insertion order, and assigning to an existing key
replaces the value in place (keeping the key's original position).  `updateD`
is exactly that operation on an association list. -/

def updateD {κ α : Type} [BEq κ] (d : List (κ × α)) (k : κ) (v : α) :
    List (κ × α) :=
  if d.any (fun p => p.1 == k) then
    d.map (fun p => if p.1 == k then (k, v) else p)
  else d ++ [(k, v)]

def lookupD {κ α : Type} [BEq κ] (d : List (κ × α)) (k : κ) : Option α :=
  (d.find? (fun p => p.1 == k)).map Prod.snd

/-- Build a dict from a list of pairs in order (a dict comprehension /
display: later pairs with an equal key overwrite, keeping first position). -/
def dictOf {κ α : Type} [BEq κ] (ps : List (κ × α)) : List (κ × α) :=
  ps.foldl (fun d p => updateD d p.1 p.2) []

/-! ### Timestamp model -/

/-- Monotone encoding of a calendar timestamp as a `Nat`. -/
def dtKey (y m d hh mi ss : Nat) : Nat :=
  ((((y * 13 + m) * 32 + d) * 24 + hh) * 60 + mi) * 60 + ss

/-- Split a character list on a separator (`"a-b-c" ↦ ["a","b","c"]`). -/
def splitOnChar (sep : Char) : List Char → List (List Char)
  | [] => [[]]
  | c :: rest =>
    let r := splitOnChar sep rest
    if c == sep then [] :: r
    else
      match r with
      | h :: t => (c :: h) :: t
      | [] => [[c]]

def digitsToNatGo (acc : Nat) : List Char → Option Nat
  | [] => some acc
  | c :: rest =>
    if c.isDigit then digitsToNatGo (acc * 10 + (c.toNat - 48)) rest else none

/-- All-digit character list to its value (`none` on empty or non-digit). -/
def digitsToNat? : List Char → Option Nat
  | [] => none
  | cs => digitsToNatGo 0 cs

def parseDatePart (cs : List Char) : Option (Nat × Nat × Nat) :=
  match splitOnChar '-' cs with
  | [y, m, d] =>
    match digitsToNat? y, digitsToNat? m, digitsToNat? d with
    | some yn, some mn, some dn =>
      if (1 ≤ mn && mn ≤ 12 && 1 ≤ dn && dn ≤ 31 && y.length == 4) then
        some (yn, mn, dn)
      else none
    | _, _, _ => none
  | _ => none

def parseTimePart (cs : List Char) : Option (Nat × Nat × Nat) :=
  match splitOnChar ':' cs with
  | [h, m] =>
    match digitsToNat? h, digitsToNat? m with
    | some hn, some mn => if (hn ≤ 23 && mn ≤ 59) then some (hn, mn, 0) else none
    | _, _ => none
  | [h, m, sec] =>
    match digitsToNat? h, digitsToNat? m, digitsToNat? sec with
    | some hn, some mn, some sn =>
      if (hn ≤ 23 && mn ≤ 59 && sn ≤ 59) then some (hn, mn, sn) else none
    | _, _, _ => none
  | _ => none

/-- Model of `pandas.to_datetime` on one ISO-format string, returning the
monotone key; `none` models a parse failure. -/
def parseDT (s : String) : Option Nat :=
  let parts :=
    if (splitOnChar 'T' s.toList).length == 2 then splitOnChar 'T' s.toList
    else splitOnChar ' ' s.toList
  match parts with
  | [d] => (parseDatePart d).map (fun ymd => dtKey ymd.1 ymd.2.1 ymd.2.2 0 0 0)
  | [d, t] =>
    match parseDatePart d, parseTimePart t with
    | some ymd, some hms => some (dtKey ymd.1 ymd.2.1 ymd.2.2 hms.1 hms.2.1 hms.2.2)
    | _, _ => none
  | _ => none

/-- The key of `pandas.Timestamp('1900-01-01')`, against which `From` is
compared in `measurement_list`. -/
def t1900 : Nat := dtKey 1900 1 1 0 0 0

/-! ### URL building (`build_url`, source lines 27-104) -/

def available_requests : List String := ["SiteList", "MeasurementList", "GetData"]

def hexDigit (n : Nat) : Char :=
  if n < 10 then Char.ofNat (48 + n) else Char.ofNat (55 + n)

/-- Percent-encoding of one UTF-8 byte, `requests.utils.quote` style
(default `safe='/'`; always-safe characters are ASCII alphanumerics and
`_.-~`). -/
def quoteByte (b : UInt8) : List Char :=
  let n := b.toNat
  let c := Char.ofNat n
  if n ≤ 127 && (c.isAlphanum || c == '_' || c == '.' || c == '-' || c == '~' || c == '/') then
    [c]
  else ['%', hexDigit (n / 16), hexDigit (n % 16)]

/-- Model of `requests.utils.quote`. -/
def quote (s : String) : String :=
  String.mk ((s.toUTF8.toList.map quoteByte).flatten)

/-- The `request == 'GetData'` block of `build_url` (source lines 87-101):
aggregation method, aggregation interval, time interval with its defaults,
then alignment, appended to `url` in that order. -/
def getDataBlock (url : String)
    (from_date to_date agg_method agg_interval alignment : Option String) : String :=
  let url := match agg_method with
    | some m => url ++ "&Method=" ++ quote m
    | none => url
  let url := match agg_interval with
    | some i => url ++ "&Interval=" ++ quote i
    | none => url
  let url := match from_date with
    | some f => url ++ "&TimeInterval=" ++ f
    | none => url ++ "&TimeInterval=1800-01-01"
  let url := match to_date with
    | some t => url ++ "/" ++ t
    | none => url ++ "/now"
  match alignment with
  | some a => url ++ "&Alignment=" ++ a
  | none => url

/-- Embedding of `build_url`.  `site` is modelled as the already-stringified
value (the source accepts `int`/`float`/`str` and stringifies). -/
def build_url (base_url hts request : String)
    (site measurement from_date to_date : Option String)
    (location : Bool) (site_parameters : Option (List String))
    (agg_method agg_interval alignment : Option String) : Except String String :=
  let base_url := if base_url.endsWith "/" then base_url else base_url ++ "/"
  if !(hts.endsWith ".hts") then .error "The hts file must end with .hts"
  else if !(available_requests.contains request) then
    .error ("request must be one of " ++ toString available_requests)
  else
    let url := base_url ++ hts ++ "?Service=Hilltop&Request=" ++ request
    let url := match site with
      | some s => url ++ "&Site=" ++ quote s
      | none => url
    let url := match measurement with
      | some m => url ++ "&Measurement=" ++ quote m
      | none => url
    let url := match site_parameters with
      | some sp => url ++ "&SiteParameters=" ++ quote (String.intercalate "," sp)
      | none => url
    let url := if location && (request == "SiteList") then url ++ "&Location=Yes" else url
    if request == "GetData" then
      .ok (getDataBlock url from_date to_date agg_method agg_interval alignment)
    else .ok url

/-! #### Spec-side decomposition of the URL (spec section 4.1)

Each query parameter is an independent fragment; the spec requires the output
to be their concatenation in the fixed order site, measurement,
site-parameters, location flag, and (only for `GetData`) aggregation method,
aggregation interval, time interval (start defaulting to `1800-01-01`, end to
`now`), alignment. -/

def sitePart : Option String → String
  | some s => "&Site=" ++ quote s
  | none => ""

def measurementPart : Option String → String
  | some m => "&Measurement=" ++ quote m
  | none => ""

def siteParametersPart : Option (List String) → String
  | some sp => "&SiteParameters=" ++ quote (String.intercalate "," sp)
  | none => ""

def locationPart (request : String) (location : Bool) : String :=
  if location && (request == "SiteList") then "&Location=Yes" else ""

def methodPart : Option String → String
  | some m => "&Method=" ++ quote m
  | none => ""

def intervalPart : Option String → String
  | some i => "&Interval=" ++ quote i
  | none => ""

def timeIntervalPart (from_date to_date : Option String) : String :=
  (match from_date with
    | some f => "&TimeInterval=" ++ f
    | none => "&TimeInterval=1800-01-01") ++
  (match to_date with
    | some t => "/" ++ t
    | none => "/now")

def alignmentPart : Option String → String
  | some a => "&Alignment=" ++ a
  | none => ""

/-- All `GetData`-only fragments in spec order; empty for other requests. -/
def getDataPart (request : String)
    (from_date to_date agg_method agg_interval alignment : Option String) : String :=
  if request == "GetData" then
    methodPart agg_method ++ intervalPart agg_interval ++
      timeIntervalPart from_date to_date ++ alignmentPart alignment
  else ""

/-- The URL as the spec describes it: a fixed prefix followed by the parameter
fragments concatenated in the mandated order. -/
def build_url_spec (base_url hts request : String)
    (site measurement from_date to_date : Option String)
    (location : Bool) (site_parameters : Option (List String))
    (agg_method agg_interval alignment : Option String) : Except String String :=
  let base := if base_url.endsWith "/" then base_url else base_url ++ "/"
  if !(hts.endsWith ".hts") then .error "The hts file must end with .hts"
  else if !(available_requests.contains request) then
    .error ("request must be one of " ++ toString available_requests)
  else
    .ok (base ++ hts ++ "?Service=Hilltop&Request=" ++ request ++
      sitePart site ++ measurementPart measurement ++
      siteParametersPart site_parameters ++ locationPart request location ++
      getDataPart request from_date to_date agg_method agg_interval alignment)

instance {ε α : Type} [DecidableEq ε] [DecidableEq α] : DecidableEq (Except ε α)
  | .error e, .error f => decidable_of_iff (e = f) (by simp)
  | .error _, .ok _ => isFalse (by simp)
  | .ok _, .error _ => isFalse (by simp)
  | .ok a, .ok b => decidable_of_iff (a = b) (by simp)

/-! ### `measurement_list` (source lines 130-222)

The network round trip and `ET.fromstring` are external collaborators; the
embedding starts from the parsed response tree.  `pd.Timestamp.today()` is the
explicit argument `today`. -/

def ds_types : List String := ["DataType", "From", "To", "SensorGroup"]

def m_types : List String := ["RequestAs", "Units"]

/-- `{c.tag: c.text.encode('ascii','ignore').decode() for c in d if c.tag in
allowed}` — iterating children in order, raising on a `None` text. -/
def dictOfTextsGo (allowed : List String) (acc : List (String × String)) :
    List XElem → Except String (List (String × String))
  | [] => .ok acc
  | c :: rest =>
    if allowed.contains c.tag then
      match c.text with
      | none => .error "AttributeError: 'NoneType' object has no attribute 'encode'"
      | some t => dictOfTextsGo allowed (updateD acc c.tag (asciiIgnore t)) rest
    else dictOfTextsGo allowed acc rest

/-- The rows contributed by the `Measurement` children of one data source:
each row is `m_dict` updated with `ds_dict` (`m_dict.update(ds_dict)`). -/
def mRows (ds_dict : List (String × String)) :
    List XElem → Except String (List (List (String × String)))
  | [] => .ok []
  | m :: rest =>
    match dictOfTextsGo m_types [] m.children with
    | .error e => .error e
    | .ok m_dict =>
      match mRows ds_dict rest with
      | .error e => .error e
      | .ok rs => .ok ((ds_dict.foldl (fun acc p => updateD acc p.1 p.2) m_dict) :: rs)

/-- All rows of one data source (`ds_dict` built first, then one row per
`Measurement` child). -/
def srcRows (d : XElem) : Except String (List (List (String × String))) :=
  match dictOfTextsGo ds_types [] d.children with
  | .error e => .error e
  | .ok ds_dict => mRows ds_dict (d.findall "Measurement")

/-- The `data_list` loop (source lines 182-192): a data source whose `TSType`
child exists with text other than `'StdSeries'` is skipped (`continue`); one
with no `TSType` child falls through (`pass`) and is kept. -/
def dataList : List XElem → Except String (List (List (String × String)))
  | [] => .ok []
  | d :: rest =>
    let skip := match d.find "TSType" with
      | none => false
      | some ts => !(ts.text == some "StdSeries")
    if skip then dataList rest
    else
      match srcRows d with
      | .error e => .error e
      | .ok rs =>
        match dataList rest with
        | .error e => .error e
        | .ok rest' => .ok (rs ++ rest')

/-- Spec-side reading of the same loop: first filter the data sources by the
series-type marker, then extract every survivor. -/
def keepSource (d : XElem) : Bool :=
  match d.find "TSType" with
  | none => true
  | some ts => ts.text == some "StdSeries"

/-- Row extraction over an already-filtered list of data sources. -/
def dataListKept : List XElem → Except String (List (List (String × String)))
  | [] => .ok []
  | d :: rest =>
    match srcRows d with
    | .error e => .error e
    | .ok rs =>
      match dataListKept rest with
      | .error e => .error e
      | .ok rest' => .ok (rs ++ rest')

/-- One processed catalog row (after column rename, timestamp coercion, the
`%`-unit replacement and the `Site` column). -/
structure CatRow where
  Measurement : Option String
  Units : Option String
  DataType : Option String
  SensorGroup : Option String
  From : Option Nat
  To : Option Nat
  Site : String
deriving DecidableEq

/-- Per-row image of the pandas post-processing (source lines 196-203):
rename `RequestAs` to `Measurement`, coerce `From`/`To` with
`errors='coerce'`, replace a literal `'%'` unit by missing, add `Site`. -/
def procRow (site : String) (r : List (String × String)) : CatRow :=
  { Measurement := lookupD r "RequestAs"
    Units := match lookupD r "Units" with
      | some u => if u == "%" then none else some u
      | none => none
    DataType := lookupD r "DataType"
    SensorGroup := lookupD r "SensorGroup"
    From := (lookupD r "From").bind parseDT
    To := (lookupD r "To").bind parseDT
    Site := site }

/-- A raw column exists in `pd.DataFrame(data_list)` iff some row dict carries
the key (rows missing it hold `NaN`). -/
def hasCol (rows : List (List (String × String))) (c : String) : Bool :=
  rows.any (fun r => (lookupD r c).isSome)

/-- The bad-row predicate of source lines 206/213: null `From` or `To`,
`From` before 1900-01-01, or `To` after `today`.  (Comparisons against a null
timestamp are false, as in pandas.) -/
def isBadRow (today : Nat) (r : CatRow) : Bool :=
  r.From.isNone || r.To.isNone ||
    (match r.From with
      | some f => decide (f < t1900)
      | none => false) ||
    (match r.To with
      | some t => decide (today < t)
      | none => false)

/-- `measurement_list` returns either one table or a (good, bad) pair. -/
inductive MLRet where
  | one (t : List CatRow)
  | two (good bad : List CatRow)
deriving DecidableEq

/-- Result of `measurement_list` together with the diagnostic notices it
prints. -/
structure MLOut where
  notices : List String
  ret : MLRet
deriving DecidableEq

/-- Embedding of `measurement_list` from the parsed response tree. -/
def measurement_list (tree : XElem) (site : String) (output_bad_sites : Bool)
    (today : Nat) : Except String MLOut :=
  if (tree.find "Error").isSome then .error "No results returned from URL request"
  else
    let data_sources := tree.findall "DataSource"
    if data_sources.isEmpty then .ok ⟨["No data, returning empty DataFrame"], .one []⟩
    else
      let wqStep : Except String (Option MLOut) :=
        match data_sources with
        | [d] =>
          match d.attr "Name" with
          | none => .error "KeyError: 'Name'"
          | some n =>
            if n == "WQ Sample" then
              .ok (some ⟨["Site only has WQ Sample"],
                if output_bad_sites then .two [] [] else .one []⟩)
            else .ok none
        | _ => .ok none
      match wqStep with
      | .error e => .error e
      | .ok (some out) => .ok out
      | .ok none =>
        match dataList data_sources with
        | .error e => .error e
        | .ok rows_raw =>
          if rows_raw.all (fun r => r.isEmpty) then
            -- `pd.DataFrame(data_list)` is empty (no columns or no rows)
            .ok ⟨[], if output_bad_sites then .two [] [] else .one []⟩
          else
            let procRows := rows_raw.map (procRow site)
            if output_bad_sites then
              if hasCol rows_raw "From" && hasCol rows_raw "To" then
                let bad := procRows.filter (isBadRow today)
                if hasCol rows_raw "RequestAs" then
                  if bad.isEmpty then .ok ⟨[], .two procRows []⟩
                  else
                    .ok ⟨["There are " ++ toString bad.length ++ " sites with bad times"],
                      .two (procRows.filter (fun r => !(isBadRow today r))) bad⟩
                else .error "KeyError: 'Measurement'"
              else .error "KeyError: 'From'"
            else
              if hasCol rows_raw "RequestAs" then .ok ⟨[], .one procRows⟩
              else .error "KeyError: 'Measurement'"

/-! ### `get_data` (source lines 253-378)

Row values: `Val.num` for a numeric cell, `Val.str` for a string cell. -/

inductive Val where
  | num (mantissa : Int) (scale : Nat)
  | str (s : String)
deriving DecidableEq

/-- Magnitude of a decimal literal as an exact scaled decimal
(`mantissa × 10^(-scale)`): `"1.5" ↦ (15, 1)`, `"2" ↦ (2, 0)`. -/
def parseNumMag (cs : List Char) : Option (Int × Nat) :=
  match splitOnChar '.' cs with
  | [intPart] => (digitsToNat? intPart).map (fun n => ((n : Int), 0))
  | [intPart, fracPart] =>
    match digitsToNat? intPart, digitsToNat? fracPart with
    | some i, some f => some (((i * 10 ^ fracPart.length + f : Nat) : Int), fracPart.length)
    | _, _ => none
  | _ => none

/-- Numeric parsing of one cell, modelling the numeric conversion attempted by
`pandas.to_numeric` on plain (optionally signed) decimal literals — the only
shapes exercised here.  The value is the exact scaled decimal
`mantissa × 10^(-scale)`. -/
def parseNum (s : String) : Option (Int × Nat) :=
  match s.toList with
  | '-' :: rest => (parseNumMag rest).map (fun p => (-p.1, p.2))
  | '+' :: rest => parseNumMag rest
  | cs => parseNumMag cs

/-- `pd.to_numeric(column, errors='ignore')`: the conversion is attempted on
the whole column and, if any cell fails to parse, the entire column is
returned unchanged (the `'ignore'` contract: "if unable to parse, return the
input"). -/
def to_numeric_ignore (vs : List String) : List Val :=
  if vs.all (fun v => (parseNum v).isSome) then
    vs.map (fun v =>
      match parseNum v with
      | some q => .num q.1 q.2
      | none => .str v)
  else vs.map .str

/-- One row of the principal value table.  `dtRaw`/`valueRaw` are the column
values before `pd.to_datetime` / `pd.to_numeric` run over the built frame;
`dt`/`value` are the final cells (`dt = none` models `NaT` from a `None`
time text). -/
structure TSRow where
  dtRaw : Option String
  dt : Option Nat
  valueRaw : String
  value : Val
deriving DecidableEq

/-- One row of a long-format (DateTime, Parameter, Value) table. -/
structure WQRow where
  dtRaw : Option String
  dt : Option Nat
  parameter : String
  value : String
deriving DecidableEq

inductive GDRet where
  | table (rows : List TSRow)
  | wqtable (rows : List WQRow)
  | withExtra (rows : List TSRow) (extra : List WQRow)
deriving DecidableEq

structure GDOut where
  notices : List String
  ret : GDRet
deriving DecidableEq

/-- `d.find(t).text` where the text is consumed by `.encode` (so both a
missing child and a `None` text raise). -/
def textReq (d : XElem) (t : String) : Except String String :=
  match d.find t with
  | none => .error "AttributeError: 'NoneType' object has no attribute 'text'"
  | some el =>
    match el.text with
    | none => .error "AttributeError: 'NoneType' object has no attribute 'encode'"
    | some s => .ok s

/-- `d.find(t).text` where a `None` text flows onward (only the missing child
raises). -/
def textOpt (d : XElem) (t : String) : Except String (Option String) :=
  match d.find t with
  | none => .error "AttributeError: 'NoneType' object has no attribute 'text'"
  | some el => .ok el.text

/-- `{i.attrib['Name']...: i.attrib['Value'][:299]... for i in params1}` —
the per-time-point parameter dict (later duplicates of a name overwrite). -/
def pDictGo (acc : List (String × String)) :
    List XElem → Except String (List (String × String))
  | [] => .ok acc
  | i :: rest =>
    match i.attr "Name" with
    | none => .error "KeyError: 'Name'"
    | some n =>
      match i.attr "Value" with
      | none => .error "KeyError: 'Value'"
      | some v => pDictGo (updateD acc (asciiIgnore n) (asciiIgnore (take299 v))) rest

def pDict (params1 : List XElem) : Except String (List (String × String)) :=
  pDictGo [] params1

/-- The `'WQ Sample'` loop of `get_data` (source lines 303-310): build
`tsdata_dict`, keyed by the time text, skipping parameterless time points;
a duplicate time key overwrites the earlier entry. -/
def wqDictGo (acc : List (Option String × List (String × String))) :
    List XElem → Except String (List (Option String × List (String × String)))
  | [] => .ok acc
  | d :: rest =>
    match textOpt d "T" with
    | .error e => .error e
    | .ok time1 =>
      let params1 := d.findall "Parameter"
      if params1.isEmpty then wqDictGo acc rest
      else
        match pDict params1 with
        | .error e => .error e
        | .ok p_dict => wqDictGo (updateD acc time1 p_dict) rest

/-- `pd.DataFrame.from_dict(tsdata_dict, orient='index').stack()`: one row per
(time, parameter) pair.  (pandas emits the rows of one time point in the
global column order rather than in per-dict order; every property stated about
this table is insensitive to that order.) -/
def stackRows (dict : List (Option String × List (String × String))) :
    List (Option String × String × String) :=
  (dict.map (fun tp => tp.2.map (fun pv => (tp.1, pv.1, pv.2)))).flatten

/-- `pd.to_datetime` on one cell: a `None` key becomes `NaT`, an unparsable
string raises. -/
def dtCell : Option String → Except String (Option Nat)
  | none => .ok none
  | some s =>
    match parseDT s with
    | none => .error "to_datetime: could not parse"
    | some k => .ok (some k)

/-- `pd.to_datetime` over the stacked rows, producing the final long-format
rows. -/
def toWQRows : List (Option String × String × String) → Except String (List WQRow)
  | [] => .ok []
  | (t, p, v) :: rest =>
    match dtCell t with
    | .error e => .error e
    | .ok k =>
      match toWQRows rest with
      | .error e => .error e
      | .ok rs => .ok (⟨t, k, p, v⟩ :: rs)

/-- The gap-skipping loop shared by the `'WQData'` (no parameters) and
`'SimpleTimeSeries'`/`'MeterReading'` branches (source lines 330-339 and
342-351): a `Gap` element increments the counter and emits nothing; a data
element is skipped while the counter is odd; otherwise its `T` text and its
`field` (`Value` or `I1`) text are emitted. -/
def gapLoopGo (field : String) (gap : Nat) :
    List XElem → Except String (List (Option String × String))
  | [] => .ok []
  | d :: rest =>
    if d.tag == "Gap" then gapLoopGo field (gap + 1) rest
    else if gap % 2 == 1 then gapLoopGo field gap rest
    else
      match textOpt d "T" with
      | .error e => .error e
      | .ok t =>
        match textReq d field with
        | .error e => .error e
        | .ok v =>
          match gapLoopGo field gap rest with
          | .error e => .error e
          | .ok rest' => .ok ((t, asciiIgnore v) :: rest')

def gapLoop (field : String) (es : List XElem) :
    Except String (List (Option String × String)) :=
  gapLoopGo field 0 es

/-- `pd.to_datetime` over a (time, raw value) list zipped with the final value
column, producing the principal value rows. -/
def mkTSRows : List ((Option String × String) × Val) → Except String (List TSRow)
  | [] => .ok []
  | ((t, vraw), v) :: rest =>
    match dtCell t with
    | .error e => .error e
    | .ok k =>
      match mkTSRows rest with
      | .error e => .error e
      | .ok rs => .ok (⟨t, k, vraw, v⟩ :: rs)

/-- The `'WQData'`-with-parameters loop (source lines 315-324): every time
point contributes a (time, value) row; time points with parameters also update
`tsextra_dict`. -/
def wqVEGo (accRows : List (Option String × String))
    (accExtra : List (Option String × List (String × String))) :
    List XElem →
      Except String (List (Option String × String) ×
        List (Option String × List (String × String)))
  | [] => .ok (accRows, accExtra)
  | d :: rest =>
    match textOpt d "T" with
    | .error e => .error e
    | .ok time1 =>
      match textReq d "Value" with
      | .error e => .error e
      | .ok value1 =>
        let params1 := d.findall "Parameter"
        if params1.isEmpty then
          wqVEGo (accRows ++ [(time1, asciiIgnore value1)]) accExtra rest
        else
          match pDict params1 with
          | .error e => .error e
          | .ok p_dict =>
            wqVEGo (accRows ++ [(time1, asciiIgnore value1)])
              (updateD accExtra time1 p_dict) rest

/-- The shape dispatch and extraction of `get_data` (source lines 297-378),
given the `DataType` text and the children of the `Data` element. -/
def get_data_extract (datatype : Option String) (es1 : List XElem)
    (measurement : String) (parameters : Bool) : Except String GDOut :=
  if measurement == "WQ Sample" then
    match wqDictGo [] es1 with
    | .error e => .error e
    | .ok dict =>
      match toWQRows (stackRows dict) with
      | .error e => .error e
      | .ok rows =>
        if parameters && (datatype == some "WQData") then
          -- line 366 reads `tsextra_dict`, never assigned on this path
          .error "NameError: name 'tsextra_dict' is not defined"
        else .ok ⟨[], .wqtable rows⟩
  else if datatype == some "WQData" then
    if parameters then
      match wqVEGo [] [] es1 with
      | .error e => .error e
      | .ok (raws, extraDict) =>
        match mkTSRows (raws.zip (raws.map (fun r => Val.str r.2))) with
        | .error e => .error e
        | .ok rows =>
          match toWQRows (stackRows extraDict) with
          | .error e => .error e
          | .ok extra => .ok ⟨[], .withExtra rows extra⟩
    else
      match gapLoop "Value" es1 with
      | .error e => .error e
      | .ok raws =>
        match mkTSRows (raws.zip (raws.map (fun r => Val.str r.2))) with
        | .error e => .error e
        | .ok rows => .ok ⟨[], .table rows⟩
  else if (datatype == some "SimpleTimeSeries") || (datatype == some "MeterReading") then
    match gapLoop "I1" es1 with
    | .error e => .error e
    | .ok raws =>
      match mkTSRows (raws.zip (to_numeric_ignore (raws.map (fun r => r.2)))) with
      | .error e => .error e
      | .ok rows => .ok ⟨[], .table rows⟩
  else .error "NameError: name 'data_df' is not defined"

/-- Embedding of `get_data` from the parsed response tree. -/
def get_data (tree : XElem) (measurement : String) (parameters : Bool) :
    Except String GDOut :=
  if (tree.find "Error").isSome then .error "No results returned from URL request"
  else
    match tree.find "Measurement" with
    | none => .ok ⟨["No data, returning empty DataFrame"], .table []⟩
    | some meas1 =>
      match meas1.find "DataSource" with
      | none => .error "AttributeError: 'NoneType' object has no attribute 'find'"
      | some ds =>
        match ds.find "DataType" with
        | none => .error "AttributeError: 'NoneType' object has no attribute 'text'"
        | some dtEl =>
          match meas1.find "Data" with
          | none => .error "AttributeError: 'NoneType' object has no attribute 'getchildren'"
          | some data1 =>
            get_data_extract dtEl.text data1.children measurement parameters

/-- The `DataType` text governing the shape dispatch, read off the tree. -/
def dataTypeOf (tree : XElem) : Option String :=
  match (tree.find "Measurement").bind (fun m => m.find "DataSource") with
  | none => none
  | some ds =>
    match ds.find "DataType" with
    | none => none
    | some dtEl => dtEl.text

/-- The children of the `Data` element, read off the tree. -/
def dataChildren (tree : XElem) : List XElem :=
  match (tree.find "Measurement").bind (fun m => m.find "Data") with
  | some d => d.children
  | none => []

/-! ### `wq_sample_parameter_list` (source lines 381-434) -/

/-- One row of the parameter-summary table. -/
structure WQPRow where
  Parameter : String
  From : Nat
  To : Nat
  DataType : String
  Site : String
deriving DecidableEq

structure WQPOut where
  notices : List String
  rows : List WQPRow
deriving DecidableEq

/-- `tuple(i.attrib['Name']... for i in params1)`. -/
def nameTuple : List XElem → Except String (List String)
  | [] => .ok []
  | i :: rest =>
    match i.attr "Name" with
    | none => .error "KeyError: 'Name'"
    | some n =>
      match nameTuple rest with
      | .error e => .error e
      | .ok ns => .ok (asciiIgnore n :: ns)

/-- The summary loop (source lines 417-423): build `tsdata_dict`
(time text -> name tuple) and remember the loop variable `p_tup` of the last
parameter-carrying time point.  (The source also accumulates `p_set`, which is
never used afterwards.)  The model requires the `T` text to be present: a
`None` key would make the later `min`/`max` raise `TypeError`. -/
def wqsplGo (acc : List (String × List String)) (lastTup : Option (List String)) :
    List XElem → Except String (List (String × List String) × Option (List String))
  | [] => .ok (acc, lastTup)
  | d :: rest =>
    let params1 := d.findall "Parameter"
    if params1.isEmpty then wqsplGo acc lastTup rest
    else
      match nameTuple params1 with
      | .error e => .error e
      | .ok p_tup =>
        match textReq d "T" with
        | .error e => .error e
        | .ok t => wqsplGo (updateD acc t p_tup) (some p_tup) rest

/-- Python `min`/`max` over a tuple of strings (lexicographic by code point;
an empty tuple raises). -/
def smin (a b : String) : String :=
  match compare a b with
  | .gt => b
  | _ => a

def smax (a b : String) : String :=
  match compare a b with
  | .lt => b
  | _ => a

def strMinMax : List String → Except String (String × String)
  | [] => .error "ValueError: min() arg is an empty sequence"
  | h :: t => .ok (t.foldl smin h, t.foldl smax h)

/-- `min_max_dict`: `(min(k), max(k))` per parameter entry. -/
def minMaxList : List (String × List String) →
    Except String (List (String × String × String))
  | [] => .ok []
  | (p, ts) :: rest =>
    match strMinMax ts with
    | .error e => .error e
    | .ok mm =>
      match minMaxList rest with
      | .error e => .error e
      | .ok ms => .ok ((p, mm.1, mm.2) :: ms)

/-- Rows of the summary table from `min_max_dict`, with `pd.to_datetime`
applied to both bounds. -/
def wqsplRows (site : String) :
    List (String × String × String) → Except String (List WQPRow)
  | [] => .ok []
  | (p, mn, mx) :: rest =>
    match parseDT mx, parseDT mn with
    | some kTo, some kFrom =>
      match wqsplRows site rest with
      | .error e => .error e
      | .ok rs => .ok (⟨p, kFrom, kTo, "WQSample", site⟩ :: rs)
    | _, _ => .error "to_datetime: could not parse"

/-- Embedding of `wq_sample_parameter_list` from the parsed response tree.
Note line 424 of the source iterates `p_tup` — the name tuple of the *last*
parameter-carrying time point — not the accumulated `p_set`. -/
def wq_sample_parameter_list (tree : XElem) (site : String) :
    Except String WQPOut :=
  if (tree.find "Error").isSome then .error "No results returned from URL request"
  else
    match tree.find "Measurement" with
    | none => .ok ⟨["No data, returning empty DataFrame"], []⟩
    | some meas1 =>
      match meas1.find "Data" with
      | none => .error "AttributeError: 'NoneType' object has no attribute 'getchildren'"
      | some data1 =>
        match wqsplGo [] none data1.children with
        | .error e => .error e
        | .ok (tsdata, lastTup) =>
          match lastTup with
          | none => .error "NameError: name 'p_tup' is not defined"
          | some p_tup =>
            let p_t_dict := dictOf (p_tup.map (fun p =>
              (p, (tsdata.filter (fun ik => ik.2.contains p)).map (fun ik => ik.1))))
            match minMaxList p_t_dict with
            | .error e => .error e
            | .ok min_max =>
              match wqsplRows site min_max with
              | .error e => .error e
              | .ok rows => .ok ⟨[], rows⟩

/-! ### Spec-side readings used by the theorems -/

/-- Number of `Gap` markers strictly before position `i`. -/
def gapsBefore (es : List XElem) (i : Nat) : Nat :=
  ((es.take i).filter (fun e => e.tag == "Gap")).length

/-- The data elements the spec says must survive gap-pair exclusion: the
non-marker elements preceded by an even number of gap markers, i.e. the
elements lying neither strictly between an odd-numbered (opening) marker and
the next even-numbered (closing) marker nor after a trailing unterminated
opening marker. -/
def gapKept (es : List XElem) : List XElem :=
  (es.enum.filter (fun p => !(p.2.tag == "Gap") && (gapsBefore es p.1) % 2 == 0)).map
    Prod.snd

/-- Recursive companion of `gapKept`, indexed by the number of markers already
seen (proof intermediary). -/
def keptGo (gap : Nat) : List XElem → List XElem
  | [] => []
  | d :: rest =>
    if d.tag == "Gap" then keptGo (gap + 1) rest
    else if gap % 2 == 1 then keptGo gap rest
    else d :: keptGo gap rest

/-- The last time point carrying the time text `kt` and at least one
parameter — the one whose parameters win in `tsdata_dict`. -/
def lastWQ (es : List XElem) (kt : Option String) : Option XElem :=
  (es.filter (fun d =>
    (d.findText "T" == kt) && !(d.findall "Parameter").isEmpty)).getLast?

/-- Does a `measurement_list` result consist of a (good, bad) pair of
tables? -/
def mlIsPair : Except String MLOut → Bool
  | .ok o =>
    match o.ret with
    | .two _ _ => true
    | .one _ => false
  | .error _ => false

/-! ### Concrete response payloads used as witnesses and counterexamples -/

/-- Leaf element with text. -/
def elT (tag text : String) : XElem := .mk tag [] (some text) []

/-- Element with children only. -/
def elC (tag : String) (cs : List XElem) : XElem := .mk tag [] none cs

/-- A `Parameter` element with `Name`/`Value` attributes. -/
def elP (n v : String) : XElem := .mk "Parameter" [("Name", n), ("Value", v)] none []

/-- A response whose root carries an `Error` element. -/
def treeErr : XElem := elC "HilltopServer" [elT "Error" "No data"]

/-- A response with neither `Error` nor any `DataSource`/`Measurement`. -/
def treeEmpty : XElem := elC "HilltopServer" []

/-- A response whose only data source is the `WQ Sample` source. -/
def treeWQOnly : XElem :=
  elC "HilltopServer" [XElem.mk "DataSource" [("Name", "WQ Sample")] none []]

/-- A catalog response with a single measurement whose `From` lies after its
`To` while both are within `[1900-01-01, today]`. -/
def dsRevRange : XElem :=
  XElem.mk "DataSource" [("Name", "Flow site")] none
    [elT "TSType" "StdSeries", elT "DataType" "StdSeries", elT "From" "1999-06-01",
      elT "To" "1998-06-01", elC "Measurement" [elT "RequestAs" "Flow", elT "Units" "m3/s"]]

def treeRevRange : XElem := elC "HilltopServer" [dsRevRange]

/-- The raw row dict extracted from `treeRevRange`. -/
def rawRevRange : List (String × String) :=
  [("RequestAs", "Flow"), ("Units", "m3/s"), ("DataType", "StdSeries"),
    ("From", "1999-06-01"), ("To", "1998-06-01")]

/-- The processed catalog row of `treeRevRange`. -/
def rowRevRange : CatRow :=
  { Measurement := some "Flow", Units := some "m3/s", DataType := some "StdSeries",
    SensorGroup := none, From := some (dtKey 1999 6 1 0 0 0),
    To := some (dtKey 1998 6 1 0 0 0), Site := "S" }

/-- A time-series response wrapper with the given `DataType` text and `Data`
children. -/
def treeTS (datatype : String) (cs : List XElem) : XElem :=
  elC "HilltopServer"
    [elC "Measurement" [elC "DataSource" [elT "DataType" datatype], elC "Data" cs]]

/-- A simple-time-series data element. -/
def elE (t v : String) : XElem := elC "E" [elT "T" t, elT "I1" v]

/-- A `Gap` marker element. -/
def elGap : XElem := elC "Gap" []

/-- Simple-time-series payload with one closed gap pair and one trailing
unterminated gap. -/
def treeGaps : XElem :=
  treeTS "SimpleTimeSeries"
    [elE "2020-01-01" "1", elGap, elE "2020-01-02" "2", elGap,
      elE "2020-01-03" "3", elGap, elE "2020-01-04" "4"]

/-- Simple-time-series payload with one numeric-looking and one non-numeric
value string. -/
def treeMixed : XElem :=
  treeTS "SimpleTimeSeries" [elE "2020-01-01" "1.5", elE "2020-01-02" "abc"]

/-- All-numeric simple-time-series payload. -/
def treeNums : XElem :=
  treeTS "SimpleTimeSeries" [elE "2020-01-01" "1.5", elE "2020-01-02" "2"]

/-- The rows `get_data` extracts from `treeNums`. -/
def rowsNums : List TSRow :=
  [⟨some "2020-01-01", some (dtKey 2020 1 1 0 0 0), "1.5", .num 15 1⟩,
    ⟨some "2020-01-02", some (dtKey 2020 1 2 0 0 0), "2", .num 2 0⟩]

/-- Water-quality sample payload: `{T1: {P1: V1, P2: V2}, T2: {}}`. -/
def treeWQPivot : XElem :=
  treeTS "WQData"
    [elC "E" [elT "T" "2020-01-01T00:00:00", elP "P1" "V1", elP "P2" "V2"],
      elC "E" [elT "T" "2020-01-02T00:00:00"]]

/-- Water-quality sample payload with a duplicated timestamp (and a duplicated
parameter name inside the second time point). -/
def treeWQDup : XElem :=
  treeTS "WQData"
    [elC "E" [elT "T" "2020-01-01T00:00:00", elP "P1" "V1"],
      elC "E" [elT "T" "2020-01-01T00:00:00", elP "P2" "V2", elP "P2" "V3"]]

/-- The rows `get_data` extracts from `treeWQPivot`. -/
def rowsWQPivot : List WQRow :=
  [⟨some "2020-01-01T00:00:00", some (dtKey 2020 1 1 0 0 0), "P1", "V1"⟩,
    ⟨some "2020-01-01T00:00:00", some (dtKey 2020 1 1 0 0 0), "P2", "V2"⟩]

/-- The rows `get_data` extracts from `treeWQDup`. -/
def rowsWQDup : List WQRow :=
  [⟨some "2020-01-01T00:00:00", some (dtKey 2020 1 1 0 0 0), "P2", "V3"⟩]

/-- Water-quality sample payload whose two time points carry distinct
parameters (`P1` at the first, `P2` at the second). -/
def treeWQTwoParams : XElem :=
  elC "HilltopServer"
    [elC "Measurement"
      [elC "Data"
        [elC "E" [elT "T" "2020-01-01", elP "P1" "V1"],
          elC "E" [elT "T" "2020-01-02", elP "P2" "V2"]]]]

/-! ## Theorems -/

/-- Claim C2: for every response document whose root tree contains an `Error`
element, each of `measurement_list`, `get_data` and `wq_sample_parameter_list`
raises immediately and performs no data extraction — the embedding returns
`Except.error`, never a (partial) table. -/
theorem error_element_short_circuits (tree : XElem) (site measurement : String)
    (output_bad_sites : Bool) (today : Nat) (parameters : Bool)
    (h : (tree.find "Error").isSome = true) :
    measurement_list tree site output_bad_sites today =
        .error "No results returned from URL request" ∧
      get_data tree measurement parameters =
        .error "No results returned from URL request" ∧
      wq_sample_parameter_list tree site =
        .error "No results returned from URL request" := by
  refine ⟨?_, ?_, ?_⟩ <;>
    simp [measurement_list, get_data, wq_sample_parameter_list, h]

/-- Witness for C2 on a concrete error payload. -/
theorem error_element_short_circuits_witness :
    (treeErr.find "Error").isSome = true ∧
      (measurement_list treeErr "S" false 0 =
        .error "No results returned from URL request" ∧
      get_data treeErr "M" false = .error "No results returned from URL request" ∧
      wq_sample_parameter_list treeErr "S" =
        .error "No results returned from URL request") :=
  ⟨by decide, error_element_short_circuits treeErr "S" "M" false 0 false (by decide)⟩

/-- Claim C7: in `measurement_list`'s extraction, a data source whose `TSType`
marker is present but not equal to `'StdSeries'` contributes no rows, while a
data source with no `TSType` marker at all is retained and its measurements
are extracted: the row extraction equals extraction over the
`keepSource`-filtered data sources. -/
theorem tstype_filter_characterization (dss : List XElem) :
    dataList dss = dataListKept (dss.filter keepSource) := by
  induction dss with
  | nil => rfl
  | cons d rest ih =>
    have hs : (match d.find "TSType" with
        | none => false
        | some ts => !(ts.text == some "StdSeries")) = !keepSource d := by
      unfold keepSource; cases d.find "TSType" <;> simp
    rw [dataList, hs, List.filter_cons]
    cases hk : keepSource d with
    | true =>
      simp only [Bool.not_true, if_pos, if_neg, Bool.false_eq_true, if_false, ite_true,
        cond_true]
      rw [dataListKept, ih]
    | false =>
      simp only [Bool.not_false, if_pos, ite_true, Bool.false_eq_true, if_false, cond_false]
      exact ih

/-- Claim C3 counterexample: with no `DataSource` element and bad-site
visibility requested, `measurement_list` returns a *single* empty table (with
its notice), not the pair of empty tables the claim asserts for that call
shape. -/
theorem no_datasource_single_table_counterexample :
    measurement_list treeEmpty "S" true 0 =
        .ok ⟨["No data, returning empty DataFrame"], .one []⟩ ∧
      mlIsPair (measurement_list treeEmpty "S" true 0) = false :=
  ⟨by decide, by decide⟩

/-- Claim C3 (amended): with no `Error` element, an absent data container
yields a single empty table plus a diagnostic notice — for `measurement_list`
even when bad sites are requested — while the WQ-Sample-only catalog yields a
pair of empty tables exactly when bad sites are requested; `get_data` with no
`Measurement` element yields a single empty table plus a notice. -/
theorem empty_payload_empty_table :
    (∀ tree site output_bad_sites today, (tree.find "Error") = none →
      tree.findall "DataSource" = [] →
      measurement_list tree site output_bad_sites today =
        .ok ⟨["No data, returning empty DataFrame"], .one []⟩) ∧
    (∀ tree site output_bad_sites today d, (tree.find "Error") = none →
      tree.findall "DataSource" = [d] → d.attr "Name" = some "WQ Sample" →
      measurement_list tree site output_bad_sites today =
        .ok ⟨["Site only has WQ Sample"],
          if output_bad_sites then .two [] [] else .one []⟩) ∧
    (∀ tree measurement parameters, (tree.find "Error") = none →
      tree.find "Measurement" = none →
      get_data tree measurement parameters =
        .ok ⟨["No data, returning empty DataFrame"], .table []⟩) := by
  refine ⟨?_, ?_, ?_⟩
  · intro tree site obs today h1 h2
    simp [measurement_list, h1, h2]
  · intro tree site obs today d h1 h2 h3
    simp [measurement_list, h1, h2, h3]
  · intro tree measurement parameters h1 h2
    simp [get_data, h1, h2]

/-- Witness for the amended C3 on concrete payloads. -/
theorem empty_payload_empty_table_witness :
    (measurement_list treeEmpty "S" true 0 =
        .ok ⟨["No data, returning empty DataFrame"], .one []⟩) ∧
      (measurement_list treeWQOnly "S" true 0 =
        .ok ⟨["Site only has WQ Sample"], .two [] []⟩) ∧
      (get_data treeEmpty "M" false =
        .ok ⟨["No data, returning empty DataFrame"], .table []⟩) :=
  ⟨empty_payload_empty_table.1 treeEmpty "S" true 0 rfl rfl,
    by
      have h := empty_payload_empty_table.2.1 treeWQOnly "S" true 0
        (XElem.mk "DataSource" [("Name", "WQ Sample")] none []) rfl rfl rfl
      simpa using h,
    empty_payload_empty_table.2.2 treeEmpty "M" false rfl rfl⟩

/-- Claim C5: `wq_sample_parameter_list` summarizes only the parameters of the
*last* parameter-carrying time point (the loop variable `p_tup`), not every
distinct parameter observed — here `P1` (present at the first time point) is
absent from the summary. -/
theorem wqspl_last_tuple_only :
    wq_sample_parameter_list treeWQTwoParams "S" =
      .ok ⟨[], [⟨"P2", dtKey 2020 1 2 0 0 0, dtKey 2020 1 2 0 0 0, "WQSample", "S"⟩]⟩ := by
  decide

/-- Claim C4 counterexample: a catalog row with `From` strictly after `To`
(both non-null, `From` at or after 1900-01-01 and `To` at or before `today`)
is *not* classified bad: it lands in the good table and the bad table is
empty, contradicting the claim's `From > To` clause. -/
theorem from_after_to_row_is_good_counterexample :
    measurement_list treeRevRange "S" true (dtKey 2020 1 1 0 0 0) =
        .ok ⟨[], .two [rowRevRange] []⟩ ∧
      rowRevRange.From = some (dtKey 1999 6 1 0 0 0) ∧
      rowRevRange.To = some (dtKey 1998 6 1 0 0 0) ∧
      dtKey 1998 6 1 0 0 0 < dtKey 1999 6 1 0 0 0 ∧
      t1900 ≤ dtKey 1998 6 1 0 0 0 ∧
      dtKey 1999 6 1 0 0 0 ≤ dtKey 2020 1 1 0 0 0 ∧
      isBadRow (dtKey 2020 1 1 0 0 0) rowRevRange = false :=
  ⟨by decide, by decide, by decide, by decide, by decide, by decide, by decide⟩

/-- Claim C6 counterexample: with a duplicated timestamp the earlier time
point's parameters are replaced wholesale (and a duplicated parameter name
within one time point is collapsed), so the first time point — which carries
one parameter — contributes no row, and the second — which carries two
`Parameter` elements — contributes only one. -/
theorem wq_pivot_duplicate_time_counterexample :
    get_data treeWQDup "WQ Sample" false =
        .ok ⟨[], .wqtable
          [⟨some "2020-01-01T00:00:00", some (dtKey 2020 1 1 0 0 0), "P2", "V3"⟩]⟩ ∧
      (dataChildren treeWQDup).map (fun d => (d.findall "Parameter").length) = [1, 2] :=
  ⟨by decide, by decide⟩

/-- Claim C9 counterexample: in a `'SimpleTimeSeries'` payload holding one
numeric-looking value (`"1.5"`) and one non-numeric value (`"abc"`), *both*
are preserved as strings — `pandas.to_numeric(errors='ignore')` abandons the
whole column on the first failure, so the numeric-looking string does not
become numeric. -/
theorem numeric_string_not_coerced_counterexample :
    (parseNum "1.5").isSome = true ∧
      get_data treeMixed "Flow" false =
        .ok ⟨[], .table
          [⟨some "2020-01-01", some (dtKey 2020 1 1 0 0 0), "1.5", .str "1.5"⟩,
            ⟨some "2020-01-02", some (dtKey 2020 1 2 0 0 0), "abc", .str "abc"⟩]⟩ :=
  ⟨by decide, by decide⟩

/-- The `GetData` block appends exactly the spec-ordered `GetData` fragments. -/
theorem getDataBlock_eq_parts (url : String)
    (from_date to_date agg_method agg_interval alignment : Option String) :
    getDataBlock url from_date to_date agg_method agg_interval alignment =
      url ++ (methodPart agg_method ++ intervalPart agg_interval ++
        timeIntervalPart from_date to_date ++ alignmentPart alignment) := by
  unfold getDataBlock methodPart intervalPart timeIntervalPart alignmentPart
  cases agg_method <;> cases agg_interval <;> cases from_date <;> cases to_date <;>
    cases alignment <;>
    simp only [String.append_assoc, String.append_empty, String.empty_append]

/-- Claim C8: `build_url` is deterministic (it is a function of its arguments,
so equal inputs give byte-identical URLs) and, on every input, emits the query
parameters in exactly the spec-mandated order — its output coincides with
`build_url_spec`, the concatenation of independent fragments in the order
site, measurement, site-parameters, location flag, and (only for `GetData`)
aggregation method, aggregation interval, time interval (start defaulting to
`1800-01-01`, end to `now`), alignment. -/
theorem build_url_follows_spec_order (base_url hts request : String)
    (site measurement from_date to_date : Option String)
    (location : Bool) (site_parameters : Option (List String))
    (agg_method agg_interval alignment : Option String) :
    build_url base_url hts request site measurement from_date to_date location
        site_parameters agg_method agg_interval alignment =
      build_url_spec base_url hts request site measurement from_date to_date location
        site_parameters agg_method agg_interval alignment := by
  unfold build_url build_url_spec
  cases hts.endsWith ".hts" <;> simp only [Bool.not_true, Bool.not_false, ite_true,
    ite_false, Bool.false_eq_true, if_false, if_true]
  cases available_requests.contains request <;> simp only [Bool.not_true, Bool.not_false,
    ite_true, ite_false, Bool.false_eq_true, if_false, if_true]
  cases hreq : request == "GetData" <;>
    cases site <;> cases measurement <;> cases site_parameters <;>
    cases hloc : location && (request == "SiteList") <;>
    simp only [sitePart, measurementPart, siteParametersPart, locationPart, getDataPart,
      hreq, hloc, getDataBlock_eq_parts, if_true, if_false, ite_true, ite_false,
      Bool.false_eq_true, String.append_assoc, String.append_empty, String.empty_append]

/-- If filtering keeps nothing, filtering on the negation keeps everything. -/
theorem filter_not_of_filter_eq_nil {α : Type} (p : α → Bool) (l : List α)
    (h : l.filter p = []) : l.filter (fun x => !(p x)) = l := by
  induction l with
  | nil => rfl
  | cons a l ih =>
    rw [List.filter_cons] at h ⊢
    cases hp : p a with
    | true => simp [hp] at h
    | false =>
      simp only [hp, Bool.false_eq_true, if_false] at h
      simp only [hp, Bool.not_false, if_true, ite_true]
      rw [ih h]

/-- Claim C4 (amended): when bad-site visibility is requested and the main
extraction path is taken (a genuine catalog: not the WQ-Sample-only shape, and
a non-empty raw frame), `measurement_list` partitions the processed catalog
rows into the returned good and bad tables: the bad table is exactly the rows
with a missing `From` or `To`, `From` before 1900-01-01, or `To` after
`today`, and the good table is exactly the complement.  (The claim's
`From > To` clause is dropped: the code never compares `From` with `To`.) -/
theorem bad_site_partition (tree : XElem) (site : String) (today : Nat)
    (rows_raw : List (List (String × String))) (out : MLOut) (g b : List CatRow)
    (hwq : ∀ d, tree.findall "DataSource" = [d] → ¬ d.attr "Name" = some "WQ Sample")
    (hdl : dataList (tree.findall "DataSource") = .ok rows_raw)
    (hne : rows_raw.all (fun r => r.isEmpty) = false)
    (hok : measurement_list tree site true today = .ok out)
    (hret : out.ret = .two g b) :
    g = (rows_raw.map (procRow site)).filter (fun r => !(isBadRow today r)) ∧
      b = (rows_raw.map (procRow site)).filter (isBadRow today) := by
  cases hE : tree.find "Error" with
  | some e => simp [measurement_list, hE] at hok
  | none =>
    cases hds : tree.findall "DataSource" with
    | nil =>
      simp only [measurement_list, hE, Option.isSome_none, Bool.false_eq_true, if_false,
        hds, List.isEmpty_nil, if_true, ite_true, ite_false, Except.ok.injEq] at hok
      rw [← hok] at hret
      simp at hret
    | cons d rest =>
      rw [hds] at hdl
      cases rest with
      | nil =>
        have hwq' : ¬ d.attr "Name" = some "WQ Sample" := hwq d hds
        cases hA : d.attr "Name" with
        | none => simp [measurement_list, hE, hds, hA] at hok
        | some n =>
          rw [hA] at hwq'
          have hn : (n == "WQ Sample") = false := by
            refine beq_eq_false_iff_ne.mpr ?_
            intro hc
            exact hwq' (by rw [hc])
          simp only [measurement_list, hE, Option.isSome_none, Bool.false_eq_true, if_false,
            hds, List.isEmpty_cons, hA, hn, hdl, hne, ite_false, ite_true, if_false,
            if_true] at hok
          cases hFT : hasCol rows_raw "From" && hasCol rows_raw "To" with
          | false => rw [hFT] at hok; simp at hok
          | true =>
            rw [hFT] at hok
            cases hRA : hasCol rows_raw "RequestAs" with
            | false => rw [hRA] at hok; simp at hok
            | true =>
              rw [hRA] at hok
              simp only [if_true, ite_true] at hok
              cases hbe : ((rows_raw.map (procRow site)).filter (isBadRow today)).isEmpty with
              | true =>
                rw [hbe] at hok
                simp only [if_true, ite_true, Except.ok.injEq] at hok
                rw [← hok] at hret
                simp only [MLRet.two.injEq] at hret
                obtain ⟨hg, hb⟩ := hret
                have hnil : (rows_raw.map (procRow site)).filter (isBadRow today) = [] := by
                  simpa using hbe
                constructor
                · rw [← hg, filter_not_of_filter_eq_nil _ _ hnil]
                · rw [← hb, hnil]
              | false =>
                rw [hbe] at hok
                simp only [Bool.false_eq_true, if_false, ite_false, Except.ok.injEq] at hok
                rw [← hok] at hret
                simp only [MLRet.two.injEq] at hret
                exact ⟨hret.1.symm, hret.2.symm⟩
      | cons d2 rest2 =>
        simp only [measurement_list, hE, Option.isSome_none, Bool.false_eq_true, if_false,
          hds, List.isEmpty_cons, hdl, hne, ite_false, ite_true, if_false, if_true] at hok
        cases hFT : hasCol rows_raw "From" && hasCol rows_raw "To" with
        | false => rw [hFT] at hok; simp at hok
        | true =>
          rw [hFT] at hok
          cases hRA : hasCol rows_raw "RequestAs" with
          | false => rw [hRA] at hok; simp at hok
          | true =>
            rw [hRA] at hok
            simp only [if_true, ite_true] at hok
            cases hbe : ((rows_raw.map (procRow site)).filter (isBadRow today)).isEmpty with
            | true =>
              rw [hbe] at hok
              simp only [if_true, ite_true, Except.ok.injEq] at hok
              rw [← hok] at hret
              simp only [MLRet.two.injEq] at hret
              obtain ⟨hg, hb⟩ := hret
              have hnil : (rows_raw.map (procRow site)).filter (isBadRow today) = [] := by
                simpa using hbe
              constructor
              · rw [← hg, filter_not_of_filter_eq_nil _ _ hnil]
              · rw [← hb, hnil]
            | false =>
              rw [hbe] at hok
              simp only [Bool.false_eq_true, if_false, ite_false, Except.ok.injEq] at hok
              rw [← hok] at hret
              simp only [MLRet.two.injEq] at hret
              exact ⟨hret.1.symm, hret.2.symm⟩

/-- Witness for the amended C4 on a concrete catalog payload. -/
theorem bad_site_partition_witness :
    [rowRevRange] =
        (([rawRevRange].map (procRow "S")).filter
          (fun r => !(isBadRow (dtKey 2020 1 1 0 0 0) r))) ∧
      ([] : List CatRow) =
        (([rawRevRange].map (procRow "S")).filter (isBadRow (dtKey 2020 1 1 0 0 0))) :=
  bad_site_partition treeRevRange "S" (dtKey 2020 1 1 0 0 0) [rawRevRange]
    ⟨[], .two [rowRevRange] []⟩ [rowRevRange] []
    (by intro d hd; injection hd with h1 h2; rw [← h1]; decide)
    (by decide) (by decide) (by decide) rfl

/-! ### Gap-pair exclusion lemmas -/

theorem enumFrom_succ_eq_map {α : Type} (l : List α) (n : Nat) :
    List.enumFrom (n + 1) l = (List.enumFrom n l).map (fun p => (p.1 + 1, p.2)) := by
  induction l generalizing n with
  | nil => rfl
  | cons a l ih =>
    rw [List.enumFrom_cons, List.enumFrom_cons, ih (n + 1), List.map_cons]

theorem gapsBefore_zero (es : List XElem) : gapsBefore es 0 = 0 := rfl

theorem gapsBefore_cons_succ (d : XElem) (rest : List XElem) (i : Nat) :
    gapsBefore (d :: rest) (i + 1) =
      (if d.tag == "Gap" then 1 else 0) + gapsBefore rest i := by
  simp only [gapsBefore, List.take_succ_cons, List.filter_cons]
  cases h : d.tag == "Gap" <;> simp [h, Nat.add_comm]

/-- The recursive survivor list agrees with the positional description: an
element survives iff it is not a marker and the number of markers before it
(plus the starting count) is even. -/
theorem keptGo_eq_enumFilter (es : List XElem) (gap : Nat) :
    keptGo gap es =
      ((es.enum.filter (fun p =>
        !(p.2.tag == "Gap") && ((gap + gapsBefore es p.1) % 2 == 0))).map Prod.snd) := by
  induction es generalizing gap with
  | nil => rfl
  | cons d rest ih =>
    have hsnd : (Prod.snd ∘ fun p : Nat × XElem => (p.1 + 1, p.2)) =
        (Prod.snd : Nat × XElem → XElem) := by
      funext p
      rfl
    have henum : (d :: rest).enum = (0, d) :: (rest.enum.map (fun p => (p.1 + 1, p.2))) := by
      show List.enumFrom 0 (d :: rest) = (0, d) :: ((List.enumFrom 0 rest).map _)
      rw [List.enumFrom_cons, enumFrom_succ_eq_map]
    rw [henum, List.filter_cons]
    cases hd : d.tag == "Gap" with
    | true =>
      rw [keptGo, if_pos hd, ih (gap + 1)]
      simp only [hd, Bool.not_true, Bool.false_and, Bool.false_eq_true, if_false, ite_false]
      rw [List.filter_map, List.map_map, hsnd]
      congr 1
      apply List.filter_congr
      intro p _
      simp only [Function.comp_apply, gapsBefore_cons_succ, hd, if_true, ite_true,
        ← Nat.add_assoc]
    | false =>
      have hc : ∀ i : Nat, gapsBefore (d :: rest) (i + 1) = gapsBefore rest i := by
        intro i
        rw [gapsBefore_cons_succ, hd]
        simp
      have htail : (List.filter (fun p : Nat × XElem =>
            !(p.2.tag == "Gap") && ((gap + gapsBefore (d :: rest) p.1) % 2 == 0))
            (rest.enum.map (fun p => (p.1 + 1, p.2)))).map Prod.snd =
          (rest.enum.filter (fun p =>
            !(p.2.tag == "Gap") && ((gap + gapsBefore rest p.1) % 2 == 0))).map Prod.snd := by
        rw [List.filter_map, List.map_map, hsnd]
        congr 1
        apply List.filter_congr
        intro p _
        simp only [Function.comp_apply, hc]
      cases hp : decide (gap % 2 = 1) with
      | true =>
        have h1 : gap % 2 = 1 := of_decide_eq_true hp
        have hb : (gap % 2 == 1) = true := by simp [h1]
        have hz : ((gap + gapsBefore (d :: rest) 0) % 2 == 0) = false := by
          rw [gapsBefore_zero, Nat.add_zero, h1]
          rfl
        rw [keptGo]
        rw [if_neg (by rw [hd]; exact Bool.false_ne_true), if_pos hb, ih gap]
        simp only [hd, Bool.not_false, Bool.true_and, hz, Bool.false_eq_true, if_false,
          ite_false]
        exact htail.symm
      | false =>
        have h1 : gap % 2 = 0 := by
          have h2 : ¬ gap % 2 = 1 := of_decide_eq_false hp
          rcases Nat.mod_two_eq_zero_or_one gap with h | h
          · exact h
          · exact absurd h h2
        have hb : (gap % 2 == 1) = false := by simp [h1]
        have hz : ((gap + gapsBefore (d :: rest) 0) % 2 == 0) = true := by
          rw [gapsBefore_zero, Nat.add_zero, h1]
          rfl
        rw [keptGo]
        rw [if_neg (by rw [hd]; exact Bool.false_ne_true),
          if_neg (by rw [hb]; exact Bool.false_ne_true), ih gap]
        simp only [hd, Bool.not_false, Bool.true_and, hz, if_true, ite_true, List.map_cons]
        rw [htail]

/-- `gapKept` is the recursive survivor list started at zero markers. -/
theorem gapKept_eq_keptGo (es : List XElem) : gapKept es = keptGo 0 es := by
  rw [keptGo_eq_enumFilter, gapKept]
  congr 1
  apply List.filter_congr
  intro p _
  rw [Nat.zero_add]

/-- First projection of the rows emitted by the gap loop: exactly the `T`
texts of the surviving elements, in order. -/
theorem gapLoopGo_fst (field : String) (es : List XElem) :
    ∀ gap raws, gapLoopGo field gap es = .ok raws →
      raws.map Prod.fst = (keptGo gap es).map (fun d => d.findText "T") := by
  induction es with
  | nil =>
    intro gap raws h
    simp only [gapLoopGo, Except.ok.injEq] at h
    rw [← h]
    rfl
  | cons d rest ih =>
    intro gap raws h
    rw [gapLoopGo] at h
    split at h
    next hd =>
      rw [keptGo, if_pos hd]
      exact ih (gap + 1) raws h
    next hd =>
      have hd' : (d.tag == "Gap") = false := by
        cases hx : d.tag == "Gap"
        · rfl
        · exact absurd hx hd
      split at h
      next hp =>
        rw [keptGo, if_neg hd, if_pos hp]
        exact ih gap raws h
      next hp =>
        rw [keptGo, if_neg hd, if_neg hp]
        cases hT : d.find "T" with
        | none => simp [textOpt, hT] at h
        | some el =>
          simp only [textOpt, hT] at h
          cases hV : textReq d field with
          | error e => rw [hV] at h; simp at h
          | ok v =>
            rw [hV] at h
            cases hrec : gapLoopGo field gap rest with
            | error e => rw [hrec] at h; simp at h
            | ok rest' =>
              rw [hrec] at h
              simp only [Except.ok.injEq] at h
              rw [← h, List.map_cons, List.map_cons, ih gap rest' hrec]
              simp [XElem.findText, hT]

/-- Projections of the final principal-value rows onto the pre-coercion
columns. -/
theorem mkTSRows_proj (prs : List ((Option String × String) × Val)) :
    ∀ rows, mkTSRows prs = .ok rows →
      rows.map (fun r => r.dtRaw) = prs.map (fun pr => pr.1.1) ∧
        rows.map (fun r => (r.valueRaw, r.value)) = prs.map (fun pr => (pr.1.2, pr.2)) := by
  induction prs with
  | nil =>
    intro rows h
    simp only [mkTSRows, Except.ok.injEq] at h
    rw [← h]
    exact ⟨rfl, rfl⟩
  | cons pr rest ih =>
    intro rows h
    obtain ⟨⟨t, vraw⟩, v⟩ := pr
    rw [mkTSRows] at h
    cases ht : dtCell t with
    | error e => rw [ht] at h; simp at h
    | ok k =>
      rw [ht] at h
      cases hrec : mkTSRows rest with
      | error e => rw [hrec] at h; simp at h
      | ok rs =>
        rw [hrec] at h
        simp only [Except.ok.injEq] at h
        rw [← h, List.map_cons, List.map_cons, List.map_cons, List.map_cons,
          (ih rs hrec).1]
        exact ⟨rfl, by rw [(ih rs hrec).2]⟩

theorem to_numeric_ignore_length (vs : List String) :
    (to_numeric_ignore vs).length = vs.length := by
  unfold to_numeric_ignore
  split <;> simp

/-- Claim C1: in `get_data`, for the `'SimpleTimeSeries'`/`'MeterReading'`
shape and for the `'WQData'` shape with parameters not requested, the returned
table carries one row per element that survives gap-pair exclusion, in order:
the elements preceded by an even number of `Gap` markers.  Consequently every
data row lying strictly between an odd-numbered (opening) marker and the next
even-numbered (closing) marker is excluded, the markers themselves produce no
rows, and after a trailing unterminated opening marker (odd marker count)
every row is excluded to the end of the payload. -/
theorem gap_pair_exclusion (tree : XElem) (measurement : String) (out : GDOut)
    (rows : List TSRow)
    (hm : (measurement == "WQ Sample") = false)
    (hdt : dataTypeOf tree = some "WQData" ∨ dataTypeOf tree = some "SimpleTimeSeries" ∨
      dataTypeOf tree = some "MeterReading")
    (hok : get_data tree measurement false = .ok out)
    (hrows : out.ret = .table rows) :
    rows.map (fun r => r.dtRaw) =
      (gapKept (dataChildren tree)).map (fun d => d.findText "T") := by
  cases hE : tree.find "Error" with
  | some e => simp [get_data, hE] at hok
  | none =>
    cases hM : tree.find "Measurement" with
    | none => simp [dataTypeOf, hM] at hdt
    | some meas1 =>
      cases hDS : meas1.find "DataSource" with
      | none => simp [get_data, hE, hM, hDS] at hok
      | some ds =>
        cases hDT : ds.find "DataType" with
        | none => simp [get_data, hE, hM, hDS, hDT] at hok
        | some dtEl =>
          cases hD : meas1.find "Data" with
          | none => simp [get_data, hE, hM, hDS, hDT, hD] at hok
          | some data1 =>
            have hdt' : dtEl.text = some "WQData" ∨ dtEl.text = some "SimpleTimeSeries" ∨
                dtEl.text = some "MeterReading" := by
              simpa [dataTypeOf, hM, hDS, hDT] using hdt
            have hdc : dataChildren tree = data1.children := by
              simp [dataChildren, hM, hD]
            simp only [get_data, hE, Option.isSome_none, Bool.false_eq_true, if_false,
              hM, hDS, hDT, hD] at hok
            rw [hdc]
            have main : ∀ field (raws : List (Option String × String))
                (vals : List Val),
                gapLoop field data1.children = .ok raws →
                vals.length = raws.length →
                mkTSRows (raws.zip vals) = .ok rows →
                rows.map (fun r => r.dtRaw) =
                  (gapKept data1.children).map (fun d => d.findText "T") := by
              intro field raws vals hG hlen hMk
              have h1 := (mkTSRows_proj _ _ hMk).1
              have h2 : (raws.zip vals).map (fun pr => pr.1.1) = raws.map Prod.fst := by
                have h3 : (raws.zip vals).map Prod.fst = raws :=
                  List.map_fst_zip raws vals (by rw [hlen])
                calc (raws.zip vals).map (fun pr => pr.1.1)
                    = ((raws.zip vals).map Prod.fst).map Prod.fst := by
                      rw [List.map_map]; rfl
                  _ = raws.map Prod.fst := by rw [h3]
              rw [h1, h2, gapKept_eq_keptGo]
              exact gapLoopGo_fst field data1.children 0 raws hG
            rcases hdt' with h | h | h <;> rw [h] at hok <;>
              simp only [get_data_extract, hm, Bool.false_eq_true, if_false, ite_false,
                show ((some "WQData" : Option String) == some "WQData") = true from rfl,
                show ((some "SimpleTimeSeries" : Option String) == some "WQData") = false
                  from rfl,
                show ((some "SimpleTimeSeries" : Option String) == some "SimpleTimeSeries")
                  = true from rfl,
                show ((some "MeterReading" : Option String) == some "WQData") = false
                  from rfl,
                show ((some "MeterReading" : Option String) == some "SimpleTimeSeries")
                  = false from rfl,
                show ((some "MeterReading" : Option String) == some "MeterReading") = true
                  from rfl,
                Bool.false_and, Bool.false_or, Bool.true_or, if_true, ite_true] at hok <;>
              split at hok <;>
              first
                | simp at hok
                | (next raws hG =>
                    split at hok
                    next e hMk => simp at hok
                    next rows' hMk =>
                      simp only [Except.ok.injEq] at hok
                      rw [← hok] at hrows
                      simp only [GDRet.table.injEq] at hrows
                      rw [hrows] at hMk
                      first
                        | exact main "Value" raws _ hG (by rw [List.length_map]) hMk
                        | exact main "I1" raws _ hG
                            (by rw [to_numeric_ignore_length, List.length_map]) hMk)

/-- Witness for C1 on a concrete gapped payload: of the four data elements,
the one between the first (opening) and second (closing) markers and the one
after the trailing unterminated third marker are excluded. -/
theorem gap_pair_exclusion_witness :
    ([⟨some "2020-01-01", some (dtKey 2020 1 1 0 0 0), "1", .num 1 0⟩,
        ⟨some "2020-01-03", some (dtKey 2020 1 3 0 0 0), "3", .num 3 0⟩] :
      List TSRow).map (fun r => r.dtRaw) =
      (gapKept (dataChildren treeGaps)).map (fun d => d.findText "T") :=
  gap_pair_exclusion treeGaps "Flow"
    ⟨[], .table [⟨some "2020-01-01", some (dtKey 2020 1 1 0 0 0), "1", .num 1 0⟩,
      ⟨some "2020-01-03", some (dtKey 2020 1 3 0 0 0), "3", .num 3 0⟩]⟩
    _ (by decide) (Or.inr (Or.inl (by decide))) (by decide) rfl

/-! ### Numeric-coercion lemmas -/

theorem zip_map_snd {α β γ : Type} (l : List (α × β)) (vals : List γ) :
    (l.zip vals).map (fun pr => (pr.1.2, pr.2)) = (l.map (fun r => r.2)).zip vals := by
  induction l generalizing vals with
  | nil => rfl
  | cons a l ih =>
    cases vals with
    | nil => rfl
    | cons v vals => simp only [List.zip_cons_cons, List.map_cons, ih]

theorem zip_map_self {α β : Type} (l : List α) (f : α → β) :
    l.zip (l.map f) = l.map (fun x => (x, f x)) := by
  induction l with
  | nil => rfl
  | cons a l ih => simp only [List.map_cons, List.zip_cons_cons, ih]

theorem zip_map_self_mem {α β : Type} (l : List α) (f : α → β) (p : α × β)
    (hp : p ∈ l.zip (l.map f)) : p.2 = f p.1 := by
  rw [zip_map_self] at hp
  obtain ⟨x, _, he⟩ := List.mem_map.mp hp
  rw [← he]

/-- Claim C9 (amended): in `get_data` for the `'SimpleTimeSeries'` /
`'MeterReading'` shape, numeric coercion is all-or-nothing over the value
column (`pandas.to_numeric(errors='ignore')`): when every value string parses
as a number, each row's value is the parsed number; when any value string
fails to parse, every value — numeric-looking or not — is preserved as its
original string, and no error is raised either way. -/
theorem numeric_coercion_all_or_nothing (tree : XElem) (measurement : String)
    (out : GDOut) (rows : List TSRow)
    (hm : (measurement == "WQ Sample") = false)
    (hdt : dataTypeOf tree = some "SimpleTimeSeries" ∨ dataTypeOf tree = some "MeterReading")
    (hok : get_data tree measurement false = .ok out)
    (hrows : out.ret = .table rows) :
    ((∀ r ∈ rows, (parseNum r.valueRaw).isSome = true) →
      ∀ r ∈ rows, ∀ m sc, parseNum r.valueRaw = some (m, sc) → r.value = .num m sc) ∧
    ((∃ r ∈ rows, parseNum r.valueRaw = none) →
      ∀ r ∈ rows, r.value = .str r.valueRaw) := by
  have key : ∀ raws : List (Option String × String),
      mkTSRows (raws.zip (to_numeric_ignore (raws.map (fun r => r.2)))) = .ok rows →
      ((∀ r ∈ rows, (parseNum r.valueRaw).isSome = true) →
        ∀ r ∈ rows, ∀ m sc, parseNum r.valueRaw = some (m, sc) → r.value = .num m sc) ∧
      ((∃ r ∈ rows, parseNum r.valueRaw = none) →
        ∀ r ∈ rows, r.value = .str r.valueRaw) := by
    intro raws hMk
    have hp2 := (mkTSRows_proj _ _ hMk).2
    rw [zip_map_snd] at hp2
    have hvr : rows.map (fun r => r.valueRaw) = raws.map (fun r => r.2) := by
      have h4 : (rows.map (fun r => (r.valueRaw, r.value))).map Prod.fst =
          ((raws.map (fun r => r.2)).zip
            (to_numeric_ignore (raws.map (fun r => r.2)))).map Prod.fst := by
        rw [hp2]
      rw [List.map_map,
        List.map_fst_zip _ _ (by rw [to_numeric_ignore_length])] at h4
      simpa using h4
    cases hall : (raws.map (fun r => r.2)).all (fun v => (parseNum v).isSome) with
    | true =>
      have htni : to_numeric_ignore (raws.map (fun r => r.2)) =
          (raws.map (fun r => r.2)).map (fun v =>
            match parseNum v with
            | some q => Val.num q.1 q.2
            | none => Val.str v) := by
        simp [to_numeric_ignore, hall]
      constructor
      · intro _ r hr m sc hpn
        have hmem : (r.valueRaw, r.value) ∈
            (raws.map (fun r => r.2)).zip (to_numeric_ignore (raws.map (fun r => r.2))) := by
          rw [← hp2]
          exact List.mem_map_of_mem _ hr
        rw [htni] at hmem
        have hv := zip_map_self_mem _ _ _ hmem
        simp only at hv
        rw [hv, hpn]
      · intro hex
        exfalso
        obtain ⟨r, hr, hnone⟩ := hex
        have hmem : r.valueRaw ∈ raws.map (fun r => r.2) := by
          rw [← hvr]
          exact List.mem_map_of_mem _ hr
        have h2 := List.all_eq_true.mp hall _ hmem
        rw [hnone] at h2
        simp at h2
    | false =>
      have htni : to_numeric_ignore (raws.map (fun r => r.2)) =
          (raws.map (fun r => r.2)).map Val.str := by
        simp [to_numeric_ignore, hall]
      constructor
      · intro hallr
        exfalso
        have hne : ¬ ((raws.map (fun r => r.2)).all (fun v => (parseNum v).isSome) = true) := by
          rw [hall]
          exact Bool.false_ne_true
        rw [List.all_eq_true] at hne
        push_neg at hne
        obtain ⟨v, hv, hnp⟩ := hne
        rw [← hvr] at hv
        obtain ⟨r, hr, hrv⟩ := List.mem_map.mp hv
        rw [← hrv] at hnp
        exact hnp (hallr r hr)
      · intro _ r hr
        have hmem : (r.valueRaw, r.value) ∈
            (raws.map (fun r => r.2)).zip (to_numeric_ignore (raws.map (fun r => r.2))) := by
          rw [← hp2]
          exact List.mem_map_of_mem _ hr
        rw [htni] at hmem
        exact zip_map_self_mem _ _ _ hmem
  cases hE : tree.find "Error" with
  | some e => simp [get_data, hE] at hok
  | none =>
    cases hM : tree.find "Measurement" with
    | none => simp [dataTypeOf, hM] at hdt
    | some meas1 =>
      cases hDS : meas1.find "DataSource" with
      | none => simp [get_data, hE, hM, hDS] at hok
      | some ds =>
        cases hDT : ds.find "DataType" with
        | none => simp [get_data, hE, hM, hDS, hDT] at hok
        | some dtEl =>
          cases hD : meas1.find "Data" with
          | none => simp [get_data, hE, hM, hDS, hDT, hD] at hok
          | some data1 =>
            have hdt' : dtEl.text = some "SimpleTimeSeries" ∨
                dtEl.text = some "MeterReading" := by
              simpa [dataTypeOf, hM, hDS, hDT] using hdt
            simp only [get_data, hE, Option.isSome_none, Bool.false_eq_true, if_false,
              hM, hDS, hDT, hD] at hok
            rcases hdt' with h | h <;> rw [h] at hok <;>
              simp only [get_data_extract, hm, Bool.false_eq_true, if_false, ite_false,
                show ((some "SimpleTimeSeries" : Option String) == some "WQData") = false
                  from rfl,
                show ((some "SimpleTimeSeries" : Option String) == some "SimpleTimeSeries")
                  = true from rfl,
                show ((some "MeterReading" : Option String) == some "WQData") = false
                  from rfl,
                show ((some "MeterReading" : Option String) == some "SimpleTimeSeries")
                  = false from rfl,
                show ((some "MeterReading" : Option String) == some "MeterReading") = true
                  from rfl,
                Bool.false_and, Bool.false_or, Bool.true_or, if_true, ite_true] at hok <;>
              split at hok <;>
              first
                | simp at hok
                | (next raws hG =>
                    split at hok
                    next e hMk => simp at hok
                    next rows' hMk =>
                      simp only [Except.ok.injEq] at hok
                      rw [← hok] at hrows
                      simp only [GDRet.table.injEq] at hrows
                      rw [hrows] at hMk
                      exact key raws hMk)

/-- Witness for the amended C9 on an all-numeric payload. -/
theorem numeric_coercion_all_or_nothing_witness :
    ((∀ r ∈ rowsNums, (parseNum r.valueRaw).isSome = true) →
      ∀ r ∈ rowsNums, ∀ m sc, parseNum r.valueRaw = some (m, sc) → r.value = .num m sc) ∧
    ((∃ r ∈ rowsNums, parseNum r.valueRaw = none) →
      ∀ r ∈ rowsNums, r.value = .str r.valueRaw) :=
  numeric_coercion_all_or_nothing treeNums "Flow" ⟨[], .table rowsNums⟩ rowsNums
    (by decide) (Or.inl (by decide)) (by decide) rfl

/-! ### Dict lemmas (Python dict semantics of `updateD`) -/

section DictLemmas

theorem lookupD_cons {κ α : Type} [BEq κ] (a : κ × α) (d : List (κ × α)) (kt : κ) :
    lookupD (a :: d) kt = if a.1 == kt then some a.2 else lookupD d kt := by
  unfold lookupD
  rw [List.find?_cons]
  cases h : a.1 == kt <;> simp [h]

variable {κ α : Type} [BEq κ] [LawfulBEq κ]

theorem map_fst_update_map (d : List (κ × α)) (k : κ) (v : α) :
    (d.map (fun p => if p.1 == k then (k, v) else p)).map Prod.fst = d.map Prod.fst := by
  rw [List.map_map]
  apply List.map_congr_left
  intro p _
  simp only [Function.comp_apply]
  cases hp : p.1 == k with
  | true =>
    rw [if_pos rfl]
    exact (eq_of_beq hp).symm
  | false => rw [if_neg Bool.false_ne_true]

theorem update_map_id (d : List (κ × α)) (k : κ) (v : α)
    (ha : d.any (fun p => p.1 == k) = false) :
    d.map (fun p => if p.1 == k then (k, v) else p) = d := by
  apply (List.map_congr_left ?_).trans (List.map_id d)
  intro p hp
  have h1 := (List.any_eq_false.mp ha) p hp
  rw [if_neg (by simpa using h1)]
  rfl

theorem updateD_keys_nodup (d : List (κ × α)) (k : κ) (v : α)
    (h : (d.map Prod.fst).Nodup) : ((updateD d k v).map Prod.fst).Nodup := by
  unfold updateD
  cases ha : d.any (fun p => p.1 == k) with
  | true =>
    rw [if_pos rfl, map_fst_update_map]
    exact h
  | false =>
    rw [if_neg Bool.false_ne_true, List.map_append]
    rw [List.nodup_append]
    refine ⟨h, by simp, ?_⟩
    intro x hx
    simp only [List.map_cons, List.map_nil, List.mem_singleton]
    intro hxk
    obtain ⟨p, hp, hpx⟩ := List.mem_map.mp hx
    have h1 := (List.any_eq_false.mp ha) p hp
    rw [hpx, hxk] at h1
    simp at h1

theorem lookupD_updateD_self (d : List (κ × α)) (k : κ) (v : α) :
    lookupD (updateD d k v) k = some v := by
  unfold updateD
  cases ha : d.any (fun p => p.1 == k) with
  | true =>
    rw [if_pos rfl]
    induction d with
    | nil => simp at ha
    | cons a d ih =>
      rw [List.map_cons]
      cases hak : a.1 == k with
      | true =>
        rw [if_pos rfl, lookupD_cons]
        simp
      | false =>
        rw [if_neg Bool.false_ne_true, lookupD_cons,
          if_neg (by rw [hak]; exact Bool.false_ne_true)]
        apply ih
        simp only [List.any_cons, Bool.or_eq_true] at ha
        rcases ha with h | h
        · rw [hak] at h; cases h
        · exact h
  | false =>
    rw [if_neg Bool.false_ne_true]
    induction d with
    | nil =>
      rw [List.nil_append, lookupD_cons]
      simp
    | cons a d ih =>
      simp only [List.any_cons, Bool.or_eq_false_iff] at ha
      rw [List.cons_append, lookupD_cons, if_neg (by rw [ha.1]; exact Bool.false_ne_true)]
      exact ih ha.2

theorem lookupD_updateD_ne (d : List (κ × α)) (k kt : κ) (v : α)
    (hne : (k == kt) = false) : lookupD (updateD d k v) kt = lookupD d kt := by
  unfold updateD
  cases ha : d.any (fun p => p.1 == k) with
  | true =>
    rw [if_pos rfl]
    clear ha
    induction d with
    | nil => rfl
    | cons a d ih =>
      rw [List.map_cons, lookupD_cons, lookupD_cons]
      cases hak : a.1 == k with
      | true =>
        rw [if_pos rfl]
        simp only [eq_of_beq hak, hne, Bool.false_eq_true, ite_false, if_false]
        exact ih
      | false =>
        rw [if_neg Bool.false_ne_true]
        cases hat : a.1 == kt with
        | true => simp [hat]
        | false =>
          simp only [hat, Bool.false_eq_true, ite_false, if_false]
          exact ih
  | false =>
    rw [if_neg Bool.false_ne_true]
    clear ha
    induction d with
    | nil =>
      rw [List.nil_append, lookupD_cons, if_neg (by rw [hne]; exact Bool.false_ne_true)]
    | cons a d ih =>
      rw [List.cons_append, lookupD_cons, lookupD_cons]
      cases hat : a.1 == kt with
      | true => simp [hat]
      | false =>
        simp only [hat, Bool.false_eq_true, ite_false, if_false]
        exact ih

theorem lookupD_eq_none_of_not_mem (d : List (κ × α)) (kt : κ)
    (h : kt ∉ d.map Prod.fst) : lookupD d kt = none := by
  induction d with
  | nil => rfl
  | cons a d ih =>
    simp only [List.map_cons, List.mem_cons, not_or] at h
    have ha : (a.1 == kt) = false := by
      cases hx : a.1 == kt
      · rfl
      · exact absurd (eq_of_beq hx).symm h.1
    rw [lookupD_cons, if_neg (by rw [ha]; exact Bool.false_ne_true)]
    exact ih h.2

end DictLemmas

/-! ### Water-quality extraction lemmas -/

/-- `tsdata_dict` after the loop: distinct keys, and the entry at each key is
the parameter dict of the last parameter-carrying time point with that time
text. -/
theorem wqDictGo_ok (es : List XElem) :
    ∀ acc dict, wqDictGo acc es = .ok dict →
      (((acc.map Prod.fst).Nodup → (dict.map Prod.fst).Nodup) ∧
      ∀ kt : Option String,
        (lastWQ es kt = none → lookupD dict kt = lookupD acc kt) ∧
        (∀ d, lastWQ es kt = some d →
          ∃ ps, pDict (d.findall "Parameter") = .ok ps ∧ lookupD dict kt = some ps)) := by
  induction es with
  | nil =>
    intro acc dict h
    simp only [wqDictGo, Except.ok.injEq] at h
    subst h
    refine ⟨id, fun kt => ⟨fun _ => rfl, fun d hd => ?_⟩⟩
    simp [lastWQ] at hd
  | cons d rest ih =>
    intro acc dict h
    rw [wqDictGo] at h
    cases hT : d.find "T" with
    | none => simp [textOpt, hT] at h
    | some el =>
      simp only [textOpt, hT] at h
      have hft : d.findText "T" = el.text := by simp [XElem.findText, hT]
      cases hpe : (d.findall "Parameter").isEmpty with
      | true =>
        rw [if_pos hpe] at h
        have IH := ih acc dict h
        refine ⟨IH.1, fun kt => ?_⟩
        have hlast : lastWQ (d :: rest) kt = lastWQ rest kt := by
          unfold lastWQ
          rw [List.filter_cons, hft, hpe]
          simp
        rw [hlast]
        exact IH.2 kt
      | false =>
        rw [if_neg (by rw [hpe]; exact Bool.false_ne_true)] at h
        cases hpd : pDict (d.findall "Parameter") with
        | error e => rw [hpd] at h; simp at h
        | ok p_dict =>
          rw [hpd] at h
          have IH := ih (updateD acc el.text p_dict) dict h
          refine ⟨fun hacc => IH.1 (updateD_keys_nodup _ _ _ hacc), fun kt => ?_⟩
          cases hfr : rest.filter (fun d' =>
              (d'.findText "T" == kt) && !(d'.findall "Parameter").isEmpty) with
          | nil =>
            have hlr : lastWQ rest kt = none := by rw [lastWQ, hfr]; rfl
            cases hkt : el.text == kt with
            | true =>
              have hkeq : el.text = kt := eq_of_beq hkt
              have hlast : lastWQ (d :: rest) kt = some d := by
                unfold lastWQ
                rw [List.filter_cons, hft, hkt, hpe, hfr]
                rfl
              refine ⟨fun hc => ?_, fun d₀ hd₀ => ?_⟩
              · rw [hlast] at hc; cases hc
              · rw [hlast] at hd₀
                injection hd₀ with hd₀
                subst hd₀
                refine ⟨p_dict, hpd, ?_⟩
                rw [(IH.2 kt).1 hlr, ← hkeq]
                exact lookupD_updateD_self acc el.text p_dict
            | false =>
              have hlast : lastWQ (d :: rest) kt = none := by
                unfold lastWQ
                rw [List.filter_cons, hft, hkt, hpe, hfr]
                rfl
              refine ⟨fun _ => ?_, fun d₀ hd₀ => ?_⟩
              · rw [(IH.2 kt).1 hlr]
                exact lookupD_updateD_ne acc el.text kt p_dict hkt
              · rw [hlast] at hd₀; cases hd₀
          | cons x xs =>
            have hlast : lastWQ (d :: rest) kt = lastWQ rest kt := by
              unfold lastWQ
              rw [List.filter_cons, hft, hpe, hfr]
              cases hkt : el.text == kt with
              | true => simp [List.getLast?_cons_cons]
              | false => simp
            have hsome : lastWQ rest kt ≠ none := by
              rw [lastWQ, hfr]
              intro hc
              rw [List.getLast?_eq_none_iff] at hc
              cases hc
            refine ⟨fun hc => ?_, fun d₀ hd₀ => ?_⟩
            · rw [hlast] at hc; exact absurd hc hsome
            · rw [hlast] at hd₀
              exact (IH.2 kt).2 d₀ hd₀

theorem filter_const {α : Type} (l : List α) (b : Bool) :
    l.filter (fun _ => b) = if b then l else [] := by
  induction l with
  | nil => cases b <;> rfl
  | cons a l ih => cases b <;> simp_all

/-- Filtering the stacked long-format rows by time key selects exactly the
dict entry at that key (keys being distinct). -/
theorem stackRows_filter (dict : List (Option String × List (String × String)))
    (kt : Option String) (hnd : (dict.map Prod.fst).Nodup) :
    (stackRows dict).filter (fun trip => trip.1 == kt) =
      (match lookupD dict kt with
        | some pd => pd.map (fun pv => (kt, pv.1, pv.2))
        | none => []) := by
  induction dict with
  | nil => rfl
  | cons a rest ih =>
    obtain ⟨k, pd⟩ := a
    rw [List.map_cons, List.nodup_cons] at hnd
    have hstack : stackRows ((k, pd) :: rest) =
        pd.map (fun pv => (k, pv.1, pv.2)) ++ stackRows rest := rfl
    rw [hstack, List.filter_append, lookupD_cons]
    have hhead : (pd.map (fun pv => (k, pv.1, pv.2))).filter
        (fun trip => trip.1 == kt) =
        if (k == kt) then pd.map (fun pv => (k, pv.1, pv.2)) else [] := by
      rw [List.filter_map]
      have hcongr : pd.filter ((fun trip : Option String × String × String =>
          trip.1 == kt) ∘ (fun pv => (k, pv.1, pv.2))) = pd.filter (fun _ => k == kt) := by
        apply List.filter_congr
        intro pv _
        rfl
      rw [hcongr, filter_const]
      cases hk2 : k == kt with
      | true => simp
      | false => simp
    rw [hhead]
    cases hk2 : k == kt with
    | true =>
      rw [if_pos rfl, if_pos rfl]
      have hkeq : k = kt := eq_of_beq hk2
      have htail : (stackRows rest).filter (fun trip => trip.1 == kt) = [] := by
        rw [ih hnd.2, lookupD_eq_none_of_not_mem]
        rw [← hkeq]
        exact hnd.1
      rw [htail, List.append_nil, hkeq]
    | false =>
      rw [if_neg Bool.false_ne_true, if_neg Bool.false_ne_true, List.nil_append]
      exact ih hnd.2

/-- Projection of the final long-format rows onto their source triples. -/
theorem toWQRows_proj (trips : List (Option String × String × String)) :
    ∀ rows, toWQRows trips = .ok rows →
      rows.map (fun r => (r.dtRaw, r.parameter, r.value)) = trips := by
  induction trips with
  | nil =>
    intro rows h
    simp only [toWQRows, Except.ok.injEq] at h
    rw [← h]
    rfl
  | cons tr rest ih =>
    intro rows h
    obtain ⟨t, p, v⟩ := tr
    rw [toWQRows] at h
    cases ht : dtCell t with
    | error e => rw [ht] at h; simp at h
    | ok k =>
      rw [ht] at h
      cases hrec : toWQRows rest with
      | error e => rw [hrec] at h; simp at h
      | ok rs =>
        rw [hrec] at h
        simp only [Except.ok.injEq] at h
        rw [← h, List.map_cons, ih rs hrec]

/-- Transport of time-key filtering from the final rows back to the stacked
triples. -/
theorem rows_filter_transfer (rows : List WQRow) :
    ∀ trips : List (Option String × String × String),
      rows.map (fun r => (r.dtRaw, r.parameter, r.value)) = trips →
      ∀ kt, (rows.filter (fun r => r.dtRaw == kt)).map (fun r => (r.parameter, r.value)) =
        (trips.filter (fun t => t.1 == kt)).map (fun t => t.2) := by
  induction rows with
  | nil =>
    intro trips h kt
    rw [← h]
    rfl
  | cons r rows ih =>
    intro trips h kt
    rw [List.map_cons] at h
    cases trips with
    | nil => cases h
    | cons tr trips =>
      injection h with h1 h2
      rw [List.filter_cons, List.filter_cons, ← h1]
      cases hk : r.dtRaw == kt with
      | true =>
        simp only [if_pos, ite_true, List.map_cons]
        rw [ih trips h2 kt]
      | false =>
        simp only [Bool.false_eq_true, ite_false, if_false]
        exact ih trips h2 kt

/-- Core characterization of the `'WQ Sample'` table of `get_data`: the rows
carrying time key `kt` are exactly the parameter dict of the last
parameter-carrying time point with that time text (and there are none when no
such time point exists). -/
theorem wq_rows_by_time (tree : XElem) (out : GDOut) (rows : List WQRow)
    (kt : Option String)
    (hok : get_data tree "WQ Sample" false = .ok out)
    (hrows : out.ret = .wqtable rows) :
    (lastWQ (dataChildren tree) kt = none →
      rows.filter (fun r => r.dtRaw == kt) = []) ∧
    (∀ d, lastWQ (dataChildren tree) kt = some d →
      ∃ ps, pDict (d.findall "Parameter") = .ok ps ∧
        (rows.filter (fun r => r.dtRaw == kt)).map (fun r => (r.parameter, r.value)) = ps) := by
  cases hE : tree.find "Error" with
  | some e => simp [get_data, hE] at hok
  | none =>
    cases hM : tree.find "Measurement" with
    | none =>
      simp only [get_data, hE, Option.isSome_none, Bool.false_eq_true, if_false, hM,
        Except.ok.injEq] at hok
      rw [← hok] at hrows
      simp at hrows
    | some meas1 =>
      cases hDS : meas1.find "DataSource" with
      | none => simp [get_data, hE, hM, hDS] at hok
      | some ds =>
        cases hDT : ds.find "DataType" with
        | none => simp [get_data, hE, hM, hDS, hDT] at hok
        | some dtEl =>
          cases hD : meas1.find "Data" with
          | none => simp [get_data, hE, hM, hDS, hDT, hD] at hok
          | some data1 =>
            have hdc : dataChildren tree = data1.children := by
              simp [dataChildren, hM, hD]
            simp only [get_data, hE, Option.isSome_none, Bool.false_eq_true, if_false,
              hM, hDS, hDT, hD] at hok
            simp only [get_data_extract,
              show (("WQ Sample" : String) == "WQ Sample") = true from rfl, if_true,
              ite_true, Bool.false_and, Bool.false_eq_true, if_false, ite_false] at hok
            rw [hdc]
            split at hok
            next e hW => simp at hok
            next dict hW =>
              split at hok
              next e hR => simp at hok
              next rows' hR =>
                simp only [Except.ok.injEq] at hok
                rw [← hok] at hrows
                simp only [GDRet.wqtable.injEq] at hrows
                rw [hrows] at hR
                have HW := wqDictGo_ok data1.children [] dict hW
                have hnd : (dict.map Prod.fst).Nodup := HW.1 (by simp)
                have hfil := rows_filter_transfer rows _ (toWQRows_proj _ _ hR) kt
                rw [stackRows_filter dict kt hnd] at hfil
                refine ⟨fun hnone => ?_, fun d hd => ?_⟩
                · have hlk : lookupD dict kt = none := by
                    rw [(HW.2 kt).1 hnone]
                    rfl
                  rw [hlk] at hfil
                  simp only [List.map_nil] at hfil
                  exact List.map_eq_nil_iff.mp hfil
                · obtain ⟨ps, hps, hlk⟩ := (HW.2 kt).2 d hd
                  refine ⟨ps, hps, ?_⟩
                  rw [hlk] at hfil
                  rw [hfil, List.map_map]
                  apply (List.map_congr_left ?_).trans (List.map_id ps)
                  intro pv _
                  rfl

/-- Claim C10: in `get_data` for the water-quality-sample shape, when several
time points carry the same timestamp string only the parameter set of the
last such (parameter-carrying) time point appears in the result: the rows at
time `t` are exactly (up to the pandas stacking order) the parameter dict of
`lastWQ`, so a later duplicate replaces all parameter rows of the earlier
one. -/
theorem wq_duplicate_timestamp_last_wins (tree : XElem) (out : GDOut)
    (rows : List WQRow) (t : String)
    (hok : get_data tree "WQ Sample" false = .ok out)
    (hrows : out.ret = .wqtable rows) :
    (lastWQ (dataChildren tree) (some t) = none →
      rows.filter (fun r => r.dtRaw == some t) = []) ∧
    (∀ d, lastWQ (dataChildren tree) (some t) = some d →
      ∃ ps, pDict (d.findall "Parameter") = .ok ps ∧
        ((rows.filter (fun r => r.dtRaw == some t)).map
          (fun r => (r.parameter, r.value))).Perm ps) := by
  have H := wq_rows_by_time tree out rows (some t) hok hrows
  refine ⟨H.1, fun d hd => ?_⟩
  obtain ⟨ps, hps, he⟩ := H.2 d hd
  refine ⟨ps, hps, ?_⟩
  rw [he]

/-- Witness for C10 on the duplicated-timestamp payload: the result holds only
`P2 ↦ V3`, the last time point's (deduplicated) parameters. -/
theorem wq_duplicate_timestamp_last_wins_witness :
    (lastWQ (dataChildren treeWQDup) (some "2020-01-01T00:00:00") = none →
      rowsWQDup.filter (fun r => r.dtRaw == some "2020-01-01T00:00:00") = []) ∧
    (∀ d, lastWQ (dataChildren treeWQDup) (some "2020-01-01T00:00:00") = some d →
      ∃ ps, pDict (d.findall "Parameter") = .ok ps ∧
        ((rowsWQDup.filter (fun r => r.dtRaw == some "2020-01-01T00:00:00")).map
          (fun r => (r.parameter, r.value))).Perm ps) :=
  wq_duplicate_timestamp_last_wins treeWQDup ⟨[], .wqtable rowsWQDup⟩ rowsWQDup
    "2020-01-01T00:00:00" (by decide) rfl

/-- A filter keeping exactly one known member of a duplicate-free list. -/
theorem filter_nodup_single {α : Type} (l : List α) (p : α → Bool) (d : α)
    (hl : l.Nodup) (hd : d ∈ l) (hpd : p d = true)
    (huniq : ∀ x ∈ l, p x = true → x = d) : l.filter p = [d] := by
  induction l with
  | nil => cases hd
  | cons a l ih =>
    rw [List.nodup_cons] at hl
    rw [List.filter_cons]
    rcases List.mem_cons.mp hd with h | h
    · rw [← h, hpd]
      simp only [ite_true, if_true, List.cons.injEq, true_and]
      rw [List.filter_eq_nil_iff]
      intro x hx hpx
      have hxd := huniq x (List.mem_cons_of_mem a hx) hpx
      rw [hxd] at hx
      rw [← h] at hl
      exact hl.1 hx
    · have hpa : p a = false := by
        cases hx : p a with
        | false => rfl
        | true =>
          have ha := huniq a (List.mem_cons_self a l) hx
          rw [ha] at hl
          exact absurd h hl.1
      rw [hpa]
      simp only [Bool.false_eq_true, ite_false, if_false]
      exact ih hl.2 h (fun x hx hpx => huniq x (List.mem_cons_of_mem a hx) hpx)

/-- Claim C6 (amended): in `get_data` for the water-quality-sample shape, on a
payload whose time points carry pairwise-distinct time texts, every time
point with zero `Parameter` elements contributes no rows, and every time
point with at least one parameter contributes exactly one
(DateTime, Parameter, Value) row per distinct parameter name (its dict `ps`,
the last value winning for a repeated name) — the wide-to-long pivot. -/
theorem wq_pivot_one_row_per_parameter (tree : XElem) (out : GDOut)
    (rows : List WQRow)
    (hnd : ((dataChildren tree).map (fun d => d.findText "T")).Nodup)
    (hok : get_data tree "WQ Sample" false = .ok out)
    (hrows : out.ret = .wqtable rows) :
    (∀ d ∈ dataChildren tree, (d.findall "Parameter").isEmpty = true →
      rows.filter (fun r => r.dtRaw == d.findText "T") = []) ∧
    (∀ d ∈ dataChildren tree, (d.findall "Parameter").isEmpty = false →
      ∀ ps, pDict (d.findall "Parameter") = .ok ps →
        ((rows.filter (fun r => r.dtRaw == d.findText "T")).map
          (fun r => (r.parameter, r.value))).Perm ps) := by
  constructor
  · intro d hd hpe
    have hnone : lastWQ (dataChildren tree) (d.findText "T") = none := by
      rw [lastWQ, List.filter_eq_nil_iff.mpr ?_]
      · rfl
      · intro d' hd' hc
        simp only [Bool.and_eq_true] at hc
        have heq : d'.findText "T" = d.findText "T" := eq_of_beq hc.1
        have hdd : d' = d := List.inj_on_of_nodup_map hnd hd' hd heq
        rw [hdd, hpe] at hc
        simp at hc
    exact (wq_rows_by_time tree out rows _ hok hrows).1 hnone
  · intro d hd hpe ps hps
    have hsome : lastWQ (dataChildren tree) (d.findText "T") = some d := by
      have hfil : (dataChildren tree).filter (fun d' =>
          (d'.findText "T" == d.findText "T") && !(d'.findall "Parameter").isEmpty) =
          [d] := by
        apply filter_nodup_single _ _ _ (List.Nodup.of_map _ hnd) hd
        · rw [hpe]
          simp
        · intro x hx hpx
          simp only [Bool.and_eq_true] at hpx
          exact List.inj_on_of_nodup_map hnd hx hd (eq_of_beq hpx.1)
      rw [lastWQ, hfil]
      rfl
    obtain ⟨ps', hps', he⟩ := (wq_rows_by_time tree out rows _ hok hrows).2 d hsome
    rw [hps] at hps'
    injection hps' with hps'
    rw [he, hps']

/-- Witness for the amended C6 on the payload `{T1: {P1: V1, P2: V2}, T2: {}}`:
T2 contributes nothing and T1 contributes exactly its two parameter rows. -/
theorem wq_pivot_one_row_per_parameter_witness :
    (∀ d ∈ dataChildren treeWQPivot, (d.findall "Parameter").isEmpty = true →
      rowsWQPivot.filter (fun r => r.dtRaw == d.findText "T") = []) ∧
    (∀ d ∈ dataChildren treeWQPivot, (d.findall "Parameter").isEmpty = false →
      ∀ ps, pDict (d.findall "Parameter") = .ok ps →
        ((rowsWQPivot.filter (fun r => r.dtRaw == d.findText "T")).map
          (fun r => (r.parameter, r.value))).Perm ps) :=
  wq_pivot_one_row_per_parameter treeWQPivot ⟨[], .wqtable rowsWQPivot⟩ rowsWQPivot
    (by decide) (by decide) rfl

end Hilltoppy
